import Mathlib

/-!
# Liquity dev deployment glue: hardhat configuration and Balancer pool deployment

A shallow embedding of

* `packages/contracts/hardhat.config.js` (credential lookup, generated dev accounts), and
* `packages/contracts/mainnetDeployment/balancerPoolDeployment.js` (the one-shot script
  that creates a two-token weighted pool, computes the initial funding plan from the
  Chainlink price, approves the vault and joins the pool),

followed by the properties of the specification, stated over these definitions.
-/

set_option autoImplicit false

/-! ## Part 1: `hardhat.config.js` -/

namespace HardhatConfig

/-- JavaScript values that occur while the configuration module is evaluated. -/
inductive JsValue where
  | undefined
  | bool (b : Bool)
  | str (s : String)
  | array (xs : List JsValue)
  deriving Repr, Inhabited

/-- Errors raised while the configuration module is evaluated. -/
inductive JsError where
  /-- Spread of a value that is not iterable. -/
  | notIterable
  /-- Property read on `undefined` or `null`. -/
  | typeError
  /-- The error of a `require` whose module-relative path resolves to no file. -/
  | moduleNotFound
  /-- Any other error raised while `require` loads the file. -/
  | loadError
  deriving Repr, DecidableEq

/-- JavaScript truthiness, as used by `if (secrets[secretKey])`. -/
def JsValue.truthy : JsValue → Bool
  | .undefined => false
  | .bool b => b
  | .str s => decide (s ≠ "")
  | .array _ => true

mutual
/-- String conversion of a value inside a template literal. -/
def JsValue.toStr : JsValue → String
  | .undefined => "undefined"
  | .bool b => if b then "true" else "false"
  | .str s => s
  | .array xs => JsValue.join xs
/-- The elements of an array, converted and separated by commas. -/
def JsValue.join : List JsValue → String
  | [] => ""
  | [x] => JsValue.element x
  | x :: y :: rest => JsValue.element x ++ "," ++ JsValue.join (y :: rest)
/-- String conversion of an array element: `undefined` becomes the empty string. -/
def JsValue.element : JsValue → String
  | .undefined => ""
  | .bool b => if b then "true" else "false"
  | .str s => s
  | .array xs => JsValue.join xs
end

/-- Property assignment `target[i] = v`. The module is not in strict mode, so an
assignment on a primitive value is silently dropped; on an array the slot is written
(slots below `i` that do not exist yet are holes, which read as `undefined`). -/
def JsValue.setIndex (target : JsValue) (i : Nat) (v : JsValue) : JsValue :=
  match target with
  | .array xs => .array ((xs ++ List.replicate (i + 1 - xs.length) JsValue.undefined).set i v)
  | other => other

/-- Spread `...v` inside an array literal: only iterable values can be spread. -/
def JsValue.spread : JsValue → Except JsError (List JsValue)
  | .array xs => .ok xs
  | .str s => .ok (s.toList.map fun c => .str (String.singleton c))
  | .undefined => .error .notIterable
  | .bool _ => .error .notIterable

/-- The constant `devChainRichAccount` (line 12). -/
def devChainRichAccount : String :=
  "0x4d5db4107d237df6a3d58ee5f70ae63d73d7658d4026f2eefd2f204c81682cb7"

/-- The loop of `generateRandomAccounts` (lines 19-21): `remaining` iterations starting
at index `i`, each one assigning a freshly created private key to `accounts[i]`. -/
def generateRandomAccounts.loop (createRandom : Nat → String) :
    Nat → Nat → JsValue → JsValue
  | 0, _, accounts => accounts
  | remaining + 1, i, accounts =>
    generateRandomAccounts.loop createRandom remaining (i + 1)
      (accounts.setIndex i (.str (createRandom i)))

/-- The function `generateRandomAccounts` (lines 16-23). `createRandom i` is the private
key of the `i`-th wallet that `Wallet.createRandom()` hands out.

Line 17 is plain JavaScript, so `new Array<String>(numberOfAccounts)` is the comparison
chain `((new Array) < String) > (numberOfAccounts)`: the empty array compares as the
empty string, which is below the text of the function `String`, so the left comparison
is `true`, and `true > n` is `1 > n`. The local `accounts` is therefore a boolean.
The body has no `return` statement, so the call evaluates to `undefined`; the value the
loop leaves in `accounts` is computed and dropped. -/
def generateRandomAccounts (createRandom : Nat → String) (numberOfAccounts : Nat) : JsValue :=
  let accounts : JsValue := .bool (decide (1 > numberOfAccounts))
  let _accounts := generateRandomAccounts.loop createRandom numberOfAccounts 0 accounts
  .undefined

/-- The constant `numAccounts` (line 24). -/
def numAccounts : Nat := 100

/-- A non-nullish `secrets` export of `./secrets.js`, as a property lookup: a property
that is not there reads as `undefined`. -/
abbrev Secrets := String → JsValue

/-- What `require("./secrets.js")` does at line 34. The path is resolved against the
directory of the configuration module. -/
inductive Required where
  /-- The call throws: `moduleNotFound` when no file is there, `loadError` when the file
  fails to load. -/
  | throws (e : JsError)
  /-- The module loads; `secrets` is its export of that name, `none` when the module
  exports no such property or exports `null` there (the destructuring then binds a
  value on which no property can be read). -/
  | loaded (secrets : Option Secrets)

/-- State of the secrets file, as `getSecret` sees it. `existsSync` is the answer of
`fs.existsSync("./secrets.js")`, which resolves the path against the working directory
of the process; `required` is the outcome of `require("./secrets.js")`, which resolves
it against the module directory. The two are independent. -/
structure SecretsFile where
  existsSync : Bool
  required : Required

/-- The function `getSecret` (lines 30-39). The default of the parameter `defaultValue`,
the empty string, is passed explicitly where a caller omits it. With the file reported
present, `require` may throw, and reading `secrets[secretKey]` on an `undefined`
`secrets` throws a `TypeError`. -/
def getSecret (file : SecretsFile) (secretKey : String) (defaultValue : JsValue) :
    Except JsError JsValue :=
  let secret := defaultValue
  if file.existsSync then
    match file.required with
    | .throws e => .error e
    | .loaded none => .error .typeError
    | .loaded (some secrets) =>
      if (secrets secretKey).truthy then .ok (secrets secretKey) else .ok secret
  else .ok secret

/-- The function `alchemyUrl` (lines 40-42). -/
def alchemyUrl (file : SecretsFile) : Except JsError String :=
  match getSecret file "alchemyAPIKey" (.str "") with
  | .ok key => .ok ("https://eth-mainnet.alchemyapi.io/v2/" ++ key.toStr)
  | .error e => .error e

/-- The function `alchemyUrlRinkeby` (lines 44-46). -/
def alchemyUrlRinkeby (file : SecretsFile) : Except JsError String :=
  match getSecret file "alchemyAPIKeyRinkeby" (.str "") with
  | .ok key => .ok ("https://eth-rinkeby.alchemyapi.io/v2/" ++ key.toStr)
  | .error e => .error e

/-- The function `devUrl` (lines 49-51). -/
def devUrl : String := "http://localhost:8545"

/-- First default passed at line 100 (also used for rinkeby at line 107). -/
def defaultDeployerKey : JsValue :=
  .str "0x60ddfe7f579ab6867cbe7a2dc03853dc141d7a4ab6dbefc0dae2d2b1bd4e487f"

/-- Second default passed at line 101. -/
def defaultAccount2Key : JsValue :=
  .str "0x3ec7cedbafd0cb9ec05bf9f7ccfa1e8b42b3e3a02c75addfccbfeb328d1b383b"

/-- The `accounts` list of `networks.mainnet` (lines 99-102): the two lookups in source
order. -/
def mainnetAccounts (file : SecretsFile) : Except JsError (List JsValue) :=
  match getSecret file "DEPLOYER_PRIVATEKEY" defaultDeployerKey with
  | .error e => .error e
  | .ok first =>
    match getSecret file "ACCOUNT2_PRIVATEKEY" defaultAccount2Key with
    | .error e => .error e
    | .ok second => .ok [first, second]

/-- The `accounts` list of `networks.rinkeby` (line 107). -/
def rinkebyAccounts (file : SecretsFile) : Except JsError (List JsValue) :=
  match getSecret file "RINKEBY_DEPLOYER_PRIVATEKEY" defaultDeployerKey with
  | .error e => .error e
  | .ok first => .ok [first]

/-- The `accounts` list of `networks.dev` (line 113),
`[deployerAccount, devChainRichAccount, ...generated]`, for a given value `generated` of
the call `generateRandomAccounts(numAccounts - 2)`. `deployerAccount` is the value
computed at line 11 (environment variable or a random key). -/
def devAccountsWith (deployerAccount : String) (generated : JsValue) :
    Except JsError (List JsValue) :=
  match generated.spread with
  | .ok keys => .ok (.str deployerAccount :: .str devChainRichAccount :: keys)
  | .error e => .error e

/-- The `accounts` list of `networks.dev` (line 113) as the file computes it. -/
def devAccounts (createRandom : Nat → String) (deployerAccount : String) :
    Except JsError (List JsValue) :=
  devAccountsWith deployerAccount (generateRandomAccounts createRandom (numAccounts - 2))

/-- One entry of `networks`: the fields that depend on the secrets file or on the
generated accounts. -/
structure NetworkConfig where
  url : String
  accounts : List JsValue

/-- The part of the exported object that is computed: the `mainnet`, `rinkeby` and `dev`
entries of `networks` and `etherscan.apiKey`. The remaining fields are literals, and
the `hardhat` entry takes its accounts from `hardhatAccountsList2k.js`, which is not
among the sources. -/
structure Exports where
  mainnet : NetworkConfig
  rinkeby : NetworkConfig
  dev : NetworkConfig
  etherscanApiKey : JsValue

/-- Evaluation of the `module.exports` literal (lines 53-137) for a given value
`generated` of the call `generateRandomAccounts(numAccounts - 2)`: the property values
are evaluated in source order, and the object exists only if none of them throws. -/
def moduleExportsWith (file : SecretsFile) (deployerAccount : String) (generated : JsValue) :
    Except JsError Exports :=
  match alchemyUrl file with
  | .error e => .error e
  | .ok mainnetUrl =>
    match mainnetAccounts file with
    | .error e => .error e
    | .ok mainnetKeys =>
      match alchemyUrlRinkeby file with
      | .error e => .error e
      | .ok rinkebyUrl =>
        match rinkebyAccounts file with
        | .error e => .error e
        | .ok rinkebyKeys =>
          match devAccountsWith deployerAccount generated with
          | .error e => .error e
          | .ok devKeys =>
            match getSecret file "ETHERSCAN_API_KEY" (.str "") with
            | .error e => .error e
            | .ok apiKey =>
              .ok ⟨⟨mainnetUrl, mainnetKeys⟩, ⟨rinkebyUrl, rinkebyKeys⟩, ⟨devUrl, devKeys⟩,
                apiKey⟩

/-- Evaluation of the `module.exports` literal as the file computes it. -/
def moduleExports (file : SecretsFile) (createRandom : Nat → String)
    (deployerAccount : String) : Except JsError Exports :=
  moduleExportsWith file deployerAccount (generateRandomAccounts createRandom (numAccounts - 2))

/-- The secrets file is absent: `fs.existsSync` answers false and a `require`, were it
made, would find no module. -/
def absentFile : SecretsFile := ⟨false, .throws .moduleNotFound⟩

/-- The secrets file is present and exports the given `secrets` object. -/
def presentFile (secrets : Secrets) : SecretsFile := ⟨true, .loaded (some secrets)⟩

end HardhatConfig

/-! ## Part 2: `mainnetDeployment/balancerPoolDeployment.js` -/

namespace BalancerPoolDeployment

/-- Contract and account addresses, as the hexadecimal strings of the source. -/
abbrev Address := String

/-- An `ethers.BigNumber`: an arbitrary-precision signed integer. -/
abbrev BigNumber := Int

/-- Pool identifier (a `bytes32`) returned by `getPoolId`. -/
abbrev PoolId := String

/-- Ways in which the script can throw. -/
inductive ScriptError where
  /-- Property read on `undefined` (`x[0].address`, `events[0].args`, `weights[i].mul`). -/
  | typeError
  /-- Use of an identifier that no scope binds. -/
  | referenceError
  /-- An argument rejected by ethers: a contract address that is `undefined`, or a
  value outside `uint256` handed to the ABI coder. -/
  | invalidArgument
  /-- The fault that `BigNumber.div` throws on a zero divisor. -/
  | divisionByZero
  /-- An awaited remote call or confirmation that rejected. -/
  | rejected
  deriving DecidableEq, Repr

/-- Modelled from the spec: `th.dec` of `utils/testHelpers.js`, which is not among the
sources. `dec(val, scale)` writes `val` followed by `scale` zeros, the fixed-point
constant `val * 10^scale`; this is the reading under which the comments of the source
hold (`dec(5, 15)` is "0.5%" and `dec(5, 22)` is "$50k" at 18 decimals) and the weight
list "sums to 1.0, fixed-point". -/
def dec (val scale : Nat) : Int := (val : Int) * 10 ^ scale

/-- The alias `toBigNum = ethers.BigNumber.from` (line 11). -/
def toBigNum (x : Int) : BigNumber := x

/-- The method `BigNumber.mul`: exact product. -/
def BigNumber.mul (a b : BigNumber) : BigNumber := a * b

/-- The method `BigNumber.sub`: exact difference. -/
def BigNumber.sub (a b : BigNumber) : BigNumber := a - b

/-- The method `BigNumber.lt`: strict comparison. -/
def BigNumber.lt (a b : BigNumber) : Bool := decide (a < b)

/-- The method `BigNumber.div`: throws on a zero divisor, otherwise the quotient
truncated towards zero. -/
def BigNumber.div (a b : BigNumber) : Except ScriptError BigNumber :=
  if b = 0 then .error .divisionByZero else .ok (Int.tdiv a b)

/-! ### Module constants (lines 16-38) -/

def VAULT : Address := "0xBA12222222228d8Ba445958a75a0704d566BF2C8"
def WEIGHTED_POOL_FACTORY : Address := "0x8E9aa87E45e92bad84D5F8DD1bff34Fb92637dE9"
def ORACLE_POOL_FACTORY : Address := "0xA5bf2ddF098bb0Ef6d120C98217dD6B141c74EE0"
def DELEGATE_OWNER : Address := "0xBA1BA1ba1BA1bA1bA1Ba1BA1ba1BA1bA1ba1ba1B"
def OCEAN : Address := "0xc02aaa39b223fe8d0a0e5c4f27ead9083c756cc2"
def LUSD : Address := "0x5f98805A4E8be255a32880FDeC7F6728C6568bA0"
def CHAINLINK_ETHUSD_PROXY : Address := "0x5f4eC3Df9cbd43714FE2740f5E3616155c5b8419"

def tokens : List Address := [LUSD, OCEAN]
def weights : List BigNumber := [toBigNum (dec 4 17), toBigNum (dec 6 17)]

def NAME : String := "OCEAN/LUSD Pool"
def SYMBOL : String := "60WETH-40LUSD"
def swapFeePercentage : BigNumber := toBigNum (dec 5 15)
def ZERO_ADDRESS : Address := "0x0000000000000000000000000000000000000000"
def INITIAL_FUNDING : BigNumber := toBigNum (dec 5 22)

/-- The constant `JOIN_KIND_INIT` (line 109). -/
def JOIN_KIND_INIT : Int := 0

/-! ### The funding plan (lines 99-105) -/

/-- Array read `xs[i]` followed by a method call on the result: an index past the end
reads `undefined`, and calling a method on it throws. -/
def index (xs : List BigNumber) (i : Nat) : Except ScriptError BigNumber :=
  match xs[i]? with
  | some x => .ok x
  | none => .error .typeError

/-- Line 99: `eth_price = chainlinkPrice.mul(toBigNum(dec(1, 10)))`. -/
def eth_price (chainlinkPrice : BigNumber) : BigNumber :=
  chainlinkPrice.mul (toBigNum (dec 1 10))

/-- Line 103: `weth_balance = INITIAL_FUNDING.mul(weights[1]).div(eth_price)`, with
the weight list as a parameter. -/
def weth_balance (weights : List BigNumber) (chainlinkPrice : BigNumber) :
    Except ScriptError BigNumber :=
  match index weights 1 with
  | .ok w1 => (INITIAL_FUNDING.mul w1).div (eth_price chainlinkPrice)
  | .error e => .error e

/-- Line 104: `lusd_balance = INITIAL_FUNDING.mul(weights[0]).div(toBigNum(dec(1, 18)))`,
with the weight list as a parameter. -/
def lusd_balance (weights : List BigNumber) : Except ScriptError BigNumber :=
  match index weights 0 with
  | .ok w0 => (INITIAL_FUNDING.mul w0).div (toBigNum (dec 1 18))
  | .error e => .error e

/-- Lines 103-105: `initialBalances = [lusd_balance, weth_balance]`, in the order in
which the source evaluates the two amounts. The token list does not enter the
computation: the positions are fixed by the code. -/
def initialBalances (_tokens : List Address) (weights : List BigNumber)
    (chainlinkPrice : BigNumber) : Except ScriptError (List BigNumber) :=
  match weth_balance weights chainlinkPrice with
  | .error e => .error e
  | .ok weth =>
    match lusd_balance weights with
    | .error e => .error e
    | .ok lusd => .ok [lusd, weth]

/-- Largest `uint256` plus one. -/
def uint256Bound : Int := 2 ^ 256

/-- The call `ethers.utils.defaultAbiCoder.encode` on the types `uint256, uint256[]`
and the values `[kind, amounts]` (lines 112-114), as the list of 32-byte words of the
encoding: the static head holds `kind` and the offset (64 bytes) of the dynamic array,
the tail holds the array length and its elements. The coder throws on a value outside
`uint256`. -/
def encodeUserData (kind : Int) (amounts : List BigNumber) : Except ScriptError (List Int) :=
  if (kind :: amounts).all (fun v => decide (0 ≤ v ∧ v < uint256Bound)) then
    .ok (kind :: 64 :: (amounts.length : Int) :: amounts)
  else .error .invalidArgument

/-! ### Remote collaborators and the trace of a run -/

/-- A submitted transaction, identified by its hash. -/
structure Tx where
  hash : Nat
  deriving DecidableEq, Repr

/-- Decoded arguments of a receipt event; `pool` is the pool-address argument. -/
structure EventArgs where
  pool : Option Address
  deriving DecidableEq, Repr

/-- One entry of `receipt.events`: the event name and the decoded arguments, each
`none` when ethers could not decode the log. -/
structure ReceiptEvent where
  event : Option String
  args : Option EventArgs
  deriving DecidableEq, Repr

/-- A transaction receipt. -/
structure Receipt where
  status : Nat
  events : List ReceiptEvent
  deriving DecidableEq, Repr

/-- A signing identity returned by `ethers.getSigners()`. -/
structure Signer where
  address : Address
  deriving DecidableEq, Repr

/-- The `joinPoolRequest` object (lines 115-120). -/
structure JoinPoolRequest where
  assets : List Address
  maxAmountsIn : List BigNumber
  userData : List Int
  fromInternalBalance : Bool
  deriving DecidableEq, Repr

/-- The remote calls the script issues, each with the contract it is sent to and its
arguments. -/
inductive Call where
  | getSigners
  | create (factory : Address) (name symbol : String) (tokens : List Address)
      (weights : List BigNumber) (swapFeePercentage : BigNumber) (oracleEnabled : Bool)
      (owner : Address)
  | wait (tx : Tx)
  | getPoolId (pool : Address)
  | latestAnswer (proxy : Address)
  | balanceOf (token owner : Address)
  | deposit (token : Address) (value : BigNumber)
  | approve (token spender : Address) (amount : BigNumber)
  | joinPool (vault : Address) (poolId : PoolId) (sender recipient : Address)
      (request : JoinPoolRequest)
  | totalSupply (pool : Address)
  deriving DecidableEq, Repr

/-- What a run leaves behind, in order: remote calls (with whether the awaited call
returned or rejected) and console output. -/
inductive Event where
  | call (c : Call) (returned : Bool)
  | logBN (label : String) (x : BigNumber)
  | consoleLog (label : String) (status : Nat)
  | consoleError (e : ScriptError)
  deriving DecidableEq, Repr

/-- The answers of the outside world to one run, one field per call site of `main`;
`none` is a call (or a confirmation wait) that rejects. Quantifying over all worlds
covers every behaviour of the remote systems on a run, since `main` issues each call
site at most once.

`WETH_ABI` is what the free identifier `WETH_ABI` of line 131 resolves to. The file
binds no such name (line 9 imports the ABI under the name `OCEAN_ABI`), so the lookup
goes to the global scope: `none` is a global scope without it, where the read throws a
`ReferenceError`; `some ()` is a global scope in which code outside this file has
installed a wrapped-token ABI object under that name. -/
structure World where
  getSigners : Option (List Signer)
  create : Option Tx
  createWait : Option Receipt
  getPoolId : Option PoolId
  latestAnswer : Option Int
  WETH_ABI : Option Unit
  balanceOfLogged : Option Nat
  balanceOf : Option Nat
  deposit : Option Tx
  depositWait : Option Receipt
  balanceOfAfter : Option Nat
  approveWeth : Option Tx
  approveWethWait : Option Receipt
  approveLusd : Option Tx
  approveLusdWait : Option Receipt
  joinPool : Option Tx
  joinPoolWait : Option Receipt
  totalSupply : Option Nat

/-- A script step: it extends the trace and either yields a value or throws. -/
def Script (α : Type) : Type := List Event → Except ScriptError α × List Event

/-- Sequencing: a throw skips everything that follows. -/
def Script.bind {α β : Type} (m : Script α) (f : α → Script β) : Script β :=
  fun trace =>
    match m trace with
    | (.ok a, trace1) => f a trace1
    | (.error e, trace1) => (.error e, trace1)

/-- A step that yields a value and does nothing else. -/
def Script.pure {α : Type} (a : α) : Script α := fun trace => (.ok a, trace)

instance : Monad Script where
  pure := Script.pure
  bind := Script.bind

/-- The statement `throw`. -/
def Script.throw {α : Type} (e : ScriptError) : Script α := fun trace => (.error e, trace)

/-- An awaited remote call: it is recorded, and yields the answer of the world or
rejects. -/
def remote {α : Type} (c : Call) (answer : Option α) : Script α :=
  fun trace =>
    match answer with
    | some a => (.ok a, trace ++ [Event.call c true])
    | none => (.error .rejected, trace ++ [Event.call c false])

/-- Console output. -/
def emit (e : Event) : Script Unit := fun trace => (.ok (), trace ++ [e])

/-- Modelled from the spec: `th.logBN` of `utils/testHelpers.js`, which is not among
the sources: "console logging of intermediate values (prices, balances)". It prints
the label with the number and has no other effect. -/
def logBN (label : String) (x : BigNumber) : Script Unit := emit (.logBN label x)

/-- A pure computation that may throw, run as a step. -/
def liftExcept {α : Type} (x : Except ScriptError α) : Script α :=
  fun trace => (x, trace)

/-- A read that throws the given error when the value is `undefined`. -/
def defined {α : Type} (x : Option α) (e : ScriptError) : Script α :=
  match x with
  | some a => Script.pure a
  | none => Script.throw e

/-- A `uint256` answer of a contract, decoded by ethers into a `BigNumber`. -/
def uint256 (answer : Option Nat) : Option BigNumber := answer.map Int.ofNat

/-- The constructor `new ethers.Contract(address, abi, signer)` for an address read
from a receipt: it throws when the address is `undefined` and issues no remote call. -/
def newContract (address : Option Address) : Script Address :=
  defined address .invalidArgument

/-- The function `main` (lines 40-157), with the module constants `tokens` and
`weights` as parameters. Contract proxies are represented by their addresses. -/
def mainWith (tokens : List Address) (weights : List BigNumber) (w : World) : Script Unit := do
  -- lines 52-53
  let signers ← remote .getSigners w.getSigners
  let deployerWallet ← defined signers[0]? .typeError
  let deployerWalletAddress := deployerWallet.address
  -- lines 55-70: proxies for the factory, the vault and the price feed
  let factory := ORACLE_POOL_FACTORY
  let vault := VAULT
  let chainlinkProxy := CHAINLINK_ETHUSD_PROXY
  -- lines 75-81
  let oracleEnabled := true
  let tx1 ← remote (.create factory NAME SYMBOL tokens weights swapFeePercentage
    oracleEnabled DELEGATE_OWNER) w.create
  let receipt1 ← remote (.wait tx1) w.createWait
  -- lines 85-86
  let events := receipt1.events.filter (fun e => decide (e.event = some "PoolCreated"))
  let first ← defined events[0]? .typeError
  let args ← defined first.args .typeError
  let poolAddress := args.pool
  -- lines 89-94
  let pool ← newContract poolAddress
  let poolId ← remote (.getPoolId pool) w.getPoolId
  -- lines 97-107
  let chainlinkPrice ← remote (.latestAnswer chainlinkProxy) w.latestAnswer
  logBN "ETH price" (eth_price chainlinkPrice)
  let weth_balance ← liftExcept (weth_balance weights chainlinkPrice)
  let lusd_balance ← liftExcept (lusd_balance weights)
  let initialBalances := [lusd_balance, weth_balance]
  logBN "Initial LUSD" lusd_balance
  logBN "Initial OCEAN" weth_balance
  -- lines 109-120
  let initUserData ← liftExcept (encodeUserData JOIN_KIND_INIT initialBalances)
  let joinPoolRequest : JoinPoolRequest :=
    ⟨tokens, initialBalances, initUserData, false⟩
  -- lines 129-133: `WETH_ABI.abi` is read before the proxy is built
  let _ ← defined w.WETH_ABI .referenceError
  let ocean := OCEAN
  -- lines 134-140
  let logged ← remote (.balanceOf ocean deployerWalletAddress) (uint256 w.balanceOfLogged)
  logBN "ocean balance: " logged
  let currentWethBalance ←
    remote (.balanceOf ocean deployerWalletAddress) (uint256 w.balanceOf)
  if currentWethBalance.lt weth_balance then do
    let txDepositWeth ←
      remote (.deposit ocean (weth_balance.sub currentWethBalance)) w.deposit
    let _ ← remote (.wait txDepositWeth) w.depositWait
  let after ← remote (.balanceOf ocean deployerWalletAddress) (uint256 w.balanceOfAfter)
  logBN "ocean balance: " after
  -- lines 141-149
  let txApproveWeth ← remote (.approve ocean VAULT weth_balance) w.approveWeth
  let _ ← remote (.wait txApproveWeth) w.approveWethWait
  let lusd := LUSD
  let txApproveLusd ← remote (.approve lusd VAULT lusd_balance) w.approveLusd
  let _ ← remote (.wait txApproveLusd) w.approveLusdWait
  -- lines 152-156
  let tx2 ← remote (.joinPool vault poolId deployerWalletAddress deployerWalletAddress
    joinPoolRequest) w.joinPool
  let receipt2 ← remote (.wait tx2) w.joinPoolWait
  emit (.consoleLog "Final tx status:" receipt2.status)
  let supply ← remote (.totalSupply pool) (uint256 w.totalSupply)
  logBN "Pool BPT tokens" supply

/-- The function `main` as the file runs it, on its own `tokens` and `weights`. -/
def main (w : World) : Script Unit := mainWith tokens weights w

/-- Result of running the file: the trace and the exit status of the process. -/
structure Outcome where
  trace : List Event
  exitCode : Nat
  deriving DecidableEq, Repr

/-- Lines 159-164: `main().then(() => process.exit(0)).catch(...)`: when `main`
returns the process exits with status 0, and a throw is printed and the process exits
with status 1. -/
def exit : Except ScriptError Unit × List Event → Outcome
  | (.ok _, trace) => ⟨trace, 0⟩
  | (.error e, trace) => ⟨trace ++ [Event.consoleError e], 1⟩

/-- Running the file: `main` is started on an empty trace. -/
def run (w : World) : Outcome := exit (main w [])

/-- A world in which every call succeeds: one signer, a create receipt carrying a
`PoolCreated` event, the given oracle answer and token balance, and the given
resolution of `WETH_ABI`. -/
def normalWorld (answer : Int) (balance : Nat) (wethAbi : Option Unit) : World where
  getSigners := some [⟨"0xDeployer"⟩]
  create := some ⟨1⟩
  createWait := some ⟨1, [⟨none, none⟩, ⟨some "PoolCreated", some ⟨some "0xPool"⟩⟩]⟩
  getPoolId := some "0xPoolId"
  latestAnswer := some answer
  WETH_ABI := wethAbi
  balanceOfLogged := some balance
  balanceOf := some balance
  deposit := some ⟨2⟩
  depositWait := some ⟨1, []⟩
  balanceOfAfter := some balance
  approveWeth := some ⟨3⟩
  approveWethWait := some ⟨1, []⟩
  approveLusd := some ⟨4⟩
  approveLusdWait := some ⟨1, []⟩
  joinPool := some ⟨5⟩
  joinPoolWait := some ⟨1, []⟩
  totalSupply := some 1000

end BalancerPoolDeployment

/-! ### Definitions used to state the properties -/

namespace BalancerPoolDeployment

/-- Reference price of a token in the words of the specification: a fixed 1:1 ratio
(one unit at 18 decimals) for the fiat-pegged token LUSD, the rescaled oracle price
for the oracle-priced token. -/
def specReferencePrice (token : Address) (chainlinkPrice : BigNumber) : BigNumber :=
  if token = LUSD then 10 ^ 18 else chainlinkPrice * 10 ^ 10

/-- Funding plan in the words of the specification: for each token, in the order of
the token list, `(targetFiatValue * tokenWeight) / referencePrice`. -/
def specFundingPlan (tokens : List Address) (weights : List BigNumber)
    (chainlinkPrice : BigNumber) : List BigNumber :=
  List.zipWith (fun token weight =>
    Int.tdiv (INITIAL_FUNDING * weight) (specReferencePrice token chainlinkPrice))
    tokens weights

/-- The call is a `vault.joinPool`. -/
def Call.isJoinPool : Call → Bool
  | .joinPool _ _ _ _ _ => true
  | .getSigners => false
  | .create _ _ _ _ _ _ _ _ => false
  | .wait _ => false
  | .getPoolId _ => false
  | .latestAnswer _ => false
  | .balanceOf _ _ => false
  | .deposit _ _ => false
  | .approve _ _ _ => false
  | .totalSupply _ => false

/-- The call is an `approve`. -/
def Call.isApprove : Call → Bool
  | .approve _ _ _ => true
  | .getSigners => false
  | .create _ _ _ _ _ _ _ _ => false
  | .wait _ => false
  | .getPoolId _ => false
  | .latestAnswer _ => false
  | .balanceOf _ _ => false
  | .deposit _ _ => false
  | .joinPool _ _ _ _ _ => false
  | .totalSupply _ => false

/-- The call is a `deposit`. -/
def Call.isDeposit : Call → Bool
  | .deposit _ _ => true
  | .getSigners => false
  | .create _ _ _ _ _ _ _ _ => false
  | .wait _ => false
  | .getPoolId _ => false
  | .latestAnswer _ => false
  | .balanceOf _ _ => false
  | .approve _ _ _ => false
  | .joinPool _ _ _ _ _ => false
  | .totalSupply _ => false

/-- The remote call recorded by an event, if the event is one. -/
def Event.remoteCall : Event → Option Call
  | .call c _ => some c
  | .logBN _ _ => none
  | .consoleLog _ _ => none
  | .consoleError _ => none

/-- The event is a `vault.joinPool` call. -/
def isJoinPool (e : Event) : Bool :=
  match e.remoteCall with
  | some c => c.isJoinPool
  | none => false

/-- The event is an `approve` call. -/
def isApprove (e : Event) : Bool :=
  match e.remoteCall with
  | some c => c.isApprove
  | none => false

/-- The event is a `deposit` call. -/
def isDeposit (e : Event) : Bool :=
  match e.remoteCall with
  | some c => c.isDeposit
  | none => false

end BalancerPoolDeployment

namespace BalancerPoolDeployment

/-- The script only appends events to the trace, and every event it appends satisfies
`P`. -/
def Script.Emits {α : Type} (P : Event → Prop) (m : Script α) : Prop :=
  ∀ t, ∃ new, (m t).2 = t ++ new ∧ ∀ e ∈ new, P e

end BalancerPoolDeployment

/-! ### Sample worlds -/

namespace BalancerPoolDeployment

/-- A normal world at the oracle answer 2000 USD (8 decimals), with no token balance
and with `WETH_ABI` resolved. -/
def sampleWorld : World := normalWorld 200000000000 0 (some ())

/-- The create receipt of `sampleWorld`. -/
def sampleReceipt : Receipt :=
  ⟨1, [⟨none, none⟩, ⟨some "PoolCreated", some ⟨some "0xPool"⟩⟩]⟩

/-- The join request that `main` builds in `sampleWorld`. -/
def sampleRequest : JoinPoolRequest :=
  ⟨tokens, [20000000000000000000000, 15000000000000000000],
    [0, 64, 2, 20000000000000000000000, 15000000000000000000], false⟩

/-- The events of the run in `sampleWorld` up to the join. -/
def samplePre : List Event :=
  [ .call .getSigners true,
    .call (.create ORACLE_POOL_FACTORY NAME SYMBOL tokens weights swapFeePercentage true
      DELEGATE_OWNER) true,
    .call (.wait ⟨1⟩) true,
    .call (.getPoolId "0xPool") true,
    .call (.latestAnswer CHAINLINK_ETHUSD_PROXY) true,
    .logBN "ETH price" 2000000000000000000000,
    .logBN "Initial LUSD" 20000000000000000000000,
    .logBN "Initial OCEAN" 15000000000000000000,
    .call (.balanceOf OCEAN "0xDeployer") true,
    .logBN "ocean balance: " 0,
    .call (.balanceOf OCEAN "0xDeployer") true,
    .call (.deposit OCEAN 15000000000000000000) true,
    .call (.wait ⟨2⟩) true,
    .call (.balanceOf OCEAN "0xDeployer") true,
    .logBN "ocean balance: " 0,
    .call (.approve OCEAN VAULT 15000000000000000000) true,
    .call (.wait ⟨3⟩) true,
    .call (.approve LUSD VAULT 20000000000000000000000) true,
    .call (.wait ⟨4⟩) true ]

/-- The events of the run in `sampleWorld` after the join. -/
def samplePost : List Event :=
  [ .call (.wait ⟨5⟩) true,
    .consoleLog "Final tx status:" 1,
    .call (.totalSupply "0xPool") true,
    .logBN "Pool BPT tokens" 1000 ]

/-- A world whose create receipt carries events, none of them named `PoolCreated`. -/
def noEventWorld : World :=
  { sampleWorld with createWait := some ⟨1, [⟨none, none⟩, ⟨some "Transfer", none⟩]⟩ }

end BalancerPoolDeployment

/-! ## Properties of the configuration module -/

namespace HardhatConfig

/-- When `getSecret` throws: exactly when the file is reported present and either
`require` throws, or the module has no `secrets` export. A missing key never throws. -/
theorem getSecret_error_iff (file : SecretsFile) (key : String) (defaultValue : JsValue)
    (e : JsError) :
    getSecret file key defaultValue = .error e ↔
      file.existsSync = true ∧
        (file.required = .throws e ∨ (file.required = .loaded none ∧ e = .typeError)) := by
  rcases file with ⟨ex, req⟩
  cases ex with
  | false => simp [getSecret]
  | true =>
    rcases req with e1 | _ | secrets
    · simp [getSecret]
    · simp [getSecret]
      exact eq_comm
    · by_cases ht : (secrets key).truthy = true <;> simp [getSecret, ht]

/-- The lookup on a file that is not reported present. -/
theorem getSecret_absent (file : SecretsFile) (key : String) (defaultValue : JsValue)
    (h : file.existsSync = false) : getSecret file key defaultValue = .ok defaultValue := by
  simp [getSecret, h]

/-- The lookup on a file that is present and exports a `secrets` object. -/
theorem getSecret_present (secrets : Secrets) (key : String) (defaultValue : JsValue) :
    getSecret (presentFile secrets) key defaultValue
      = .ok (if (secrets key).truthy then secrets key else defaultValue) := by
  by_cases ht : (secrets key).truthy = true <;> simp [getSecret, presentFile, ht]

/-- C8, as stated, fails: with no secrets file, with a secrets file that lacks both
keys, and with one that holds the empty string for both, the mainnet accounts are the
two hardcoded default private keys and the lookups raise no error. The exported
configuration carries these defaults as soon as the generated dev accounts are
iterable; as the file stands nothing is exported, with the same error whether the
credentials are missing or present. -/
theorem mainnet_falls_back_to_defaults :
    mainnetAccounts absentFile = .ok [defaultDeployerKey, defaultAccount2Key] ∧
    mainnetAccounts (presentFile fun _ => .undefined)
      = .ok [defaultDeployerKey, defaultAccount2Key] ∧
    mainnetAccounts (presentFile fun _ => .str "")
      = .ok [defaultDeployerKey, defaultAccount2Key] ∧
    (∀ (deployerAccount : String) (keys : List JsValue),
      ∃ config, moduleExportsWith absentFile deployerAccount (.array keys) = .ok config ∧
        config.mainnet.accounts = [defaultDeployerKey, defaultAccount2Key]) ∧
    (∀ (createRandom : Nat → String) (deployerAccount : String) (secrets : Secrets),
      moduleExports absentFile createRandom deployerAccount = .error .notIterable ∧
      moduleExports (presentFile secrets) createRandom deployerAccount
        = .error .notIterable) ∧
    ¬ (∀ (file : SecretsFile) (keys : List JsValue), mainnetAccounts file = .ok keys →
        ∀ key ∈ keys, key ≠ defaultDeployerKey ∧ key ≠ defaultAccount2Key) := by
  have h1 : mainnetAccounts absentFile = .ok [defaultDeployerKey, defaultAccount2Key] := by
    simp [mainnetAccounts, getSecret, absentFile]
  refine ⟨h1, ?_, ?_, ?_, ?_, ?_⟩
  · simp [mainnetAccounts, getSecret_present, JsValue.truthy]
  · simp [mainnetAccounts, getSecret_present, JsValue.truthy]
  · intro deployerAccount keys
    simp only [moduleExportsWith, alchemyUrl, alchemyUrlRinkeby, rinkebyAccounts, h1,
      devAccountsWith, JsValue.spread, getSecret_absent absentFile _ _ rfl]
    exact ⟨_, rfl, rfl⟩
  · intro createRandom deployerAccount secrets
    constructor
    · simp only [moduleExports, moduleExportsWith, alchemyUrl, alchemyUrlRinkeby,
        rinkebyAccounts, h1, devAccountsWith, generateRandomAccounts, JsValue.spread,
        getSecret_absent absentFile _ _ rfl]
    · simp only [moduleExports, moduleExportsWith, alchemyUrl, alchemyUrlRinkeby,
        rinkebyAccounts, mainnetAccounts, devAccountsWith, generateRandomAccounts,
        JsValue.spread, getSecret_present]
  · intro h
    exact (h absentFile _ h1 defaultDeployerKey (by simp)).1 rfl

/-- C8, amended: for every state of the secrets file, the mainnet accounts are the
hardcoded defaults when the file is not reported present; when it is present and
exports a `secrets` object, each account is the value held for its key if that value
is truthy and the hardcoded default otherwise, so a key that is missing or empty
falls back to the default without any error. An error is raised exactly when the file
is reported present and either `require` throws or the module has no `secrets` export:
never because a credential is missing. -/
theorem mainnet_accounts_lookup (file : SecretsFile) :
    (file.existsSync = false →
      mainnetAccounts file = .ok [defaultDeployerKey, defaultAccount2Key]) ∧
    (∀ secrets, file = presentFile secrets →
      mainnetAccounts file = .ok
        [ if (secrets "DEPLOYER_PRIVATEKEY").truthy then secrets "DEPLOYER_PRIVATEKEY"
          else defaultDeployerKey,
          if (secrets "ACCOUNT2_PRIVATEKEY").truthy then secrets "ACCOUNT2_PRIVATEKEY"
          else defaultAccount2Key ]) ∧
    (∀ secrets, file = presentFile secrets →
      (secrets "DEPLOYER_PRIVATEKEY" = .undefined ∨ secrets "DEPLOYER_PRIVATEKEY" = .str "") →
      (secrets "ACCOUNT2_PRIVATEKEY" = .undefined ∨ secrets "ACCOUNT2_PRIVATEKEY" = .str "") →
      mainnetAccounts file = .ok [defaultDeployerKey, defaultAccount2Key]) ∧
    (∀ e, mainnetAccounts file = .error e ↔
      file.existsSync = true ∧
        (file.required = .throws e ∨ (file.required = .loaded none ∧ e = .typeError))) ∧
    (∀ key defaultValue e, getSecret file key defaultValue = .error e ↔
      file.existsSync = true ∧
        (file.required = .throws e ∨ (file.required = .loaded none ∧ e = .typeError))) := by
  refine ⟨?_, ?_, ?_, ?_, fun key d e => getSecret_error_iff file key d e⟩
  · intro h
    simp [mainnetAccounts, getSecret_absent file _ _ h]
  · intro secrets hf
    subst hf
    simp only [mainnetAccounts, getSecret_present]
  · intro secrets hf h1 h2
    subst hf
    simp only [mainnetAccounts, getSecret_present]
    rcases h1 with h1 | h1 <;> rcases h2 with h2 | h2 <;> simp [h1, h2, JsValue.truthy]
  · intro e
    rw [← getSecret_error_iff file "DEPLOYER_PRIVATEKEY" defaultDeployerKey e]
    rcases file with ⟨ex, req⟩
    cases ex with
    | false => simp [mainnetAccounts, getSecret]
    | true =>
      rcases req with e1 | _ | secrets
      · simp [mainnetAccounts, getSecret]
      · simp [mainnetAccounts, getSecret]
      · by_cases h1 : (secrets "DEPLOYER_PRIVATEKEY").truthy = true <;>
          by_cases h2 : (secrets "ACCOUNT2_PRIVATEKEY").truthy = true <;>
          simp [mainnetAccounts, getSecret, h1, h2]

/-- C10 fails on the code: `generateRandomAccounts` has no `return`, so for every `n`
(in particular for `numAccounts - 2 = 98`) it evaluates to `undefined`, not to a list
of `n` keys; spreading that value at line 113 throws, so the dev accounts list is not
defined and, whatever the state of the secrets file, the configuration object is never
exported. When the secrets lookups themselves do not throw, the error is that of the
spread. -/
theorem generateRandomAccounts_returns_undefined (createRandom : Nat → String)
    (deployerAccount : String) :
    (∀ n, generateRandomAccounts createRandom n = JsValue.undefined) ∧
    numAccounts - 2 = 98 ∧
    generateRandomAccounts createRandom 98 = JsValue.undefined ∧
    devAccounts createRandom deployerAccount = .error .notIterable ∧
    (∀ file, ∃ e, moduleExports file createRandom deployerAccount = .error e) ∧
    (∀ file, (file.existsSync = false ∨ ∃ secrets, file.required = .loaded (some secrets)) →
      moduleExports file createRandom deployerAccount = .error .notIterable) := by
  have hgen : ∀ file : SecretsFile,
      (file.existsSync = false ∨ ∃ secrets, file.required = .loaded (some secrets)) →
      moduleExports file createRandom deployerAccount = .error .notIterable := by
    intro file h
    rcases file with ⟨ex, req⟩
    cases ex with
    | false =>
      simp [moduleExports, moduleExportsWith, alchemyUrl, alchemyUrlRinkeby, mainnetAccounts,
        rinkebyAccounts, devAccountsWith, generateRandomAccounts, JsValue.spread, getSecret]
    | true =>
      rcases h with h | ⟨secrets, h⟩
      · simp at h
      · simp only at h
        subst h
        have hp := getSecret_present secrets
        simp only [presentFile] at hp
        simp only [moduleExports, moduleExportsWith, alchemyUrl, alchemyUrlRinkeby,
          mainnetAccounts, rinkebyAccounts, devAccountsWith, generateRandomAccounts,
          JsValue.spread, hp]
  refine ⟨fun _ => rfl, rfl, rfl, rfl, ?_, hgen⟩
  intro file
  rcases file with ⟨ex, req⟩
  cases ex with
  | false => exact ⟨_, hgen _ (Or.inl rfl)⟩
  | true =>
    rcases req with e1 | _ | secrets
    · exact ⟨e1, by simp [moduleExports, moduleExportsWith, alchemyUrl, getSecret]⟩
    · exact ⟨.typeError, by simp [moduleExports, moduleExportsWith, alchemyUrl, getSecret]⟩
    · exact ⟨_, hgen _ (Or.inr ⟨secrets, rfl⟩)⟩

end HardhatConfig

/-! ## Properties of the funding plan -/

namespace BalancerPoolDeployment

theorem INITIAL_FUNDING_eq : INITIAL_FUNDING = 5 * 10 ^ 22 := by
  norm_num [INITIAL_FUNDING, toBigNum, dec]

theorem weights_eq : weights = [4 * 10 ^ 17, 6 * 10 ^ 17] := by
  norm_num [weights, toBigNum, dec]

theorem eth_price_eq (p : Int) : eth_price p = p * 10 ^ 10 := by
  simp [eth_price, BigNumber.mul, toBigNum, dec]

theorem lusd_balance_eq : lusd_balance weights = .ok (2 * 10 ^ 22) := by
  simp only [lusd_balance, index, weights_eq, INITIAL_FUNDING_eq, BigNumber.mul,
    BigNumber.div, toBigNum, dec]
  norm_num
  rfl

theorem weth_balance_eq (p : Int) (hp : 0 < p) :
    weth_balance weights p = .ok ((3 * 10 ^ 40) / (p * 10 ^ 10)) := by
  have h0 : p * 10 ^ 10 ≠ 0 := by positivity
  simp only [weth_balance, index, weights_eq, INITIAL_FUNDING_eq, BigNumber.mul,
    BigNumber.div, eth_price_eq]
  simp only [List.getElem?_cons_succ, List.getElem?_cons_zero, if_neg h0]
  rw [Int.tdiv_eq_ediv (by norm_num) (by positivity)]
  norm_num

theorem initialBalances_eq (p : Int) (hp : 0 < p) :
    initialBalances tokens weights p = .ok [2 * 10 ^ 22, (3 * 10 ^ 40) / (p * 10 ^ 10)] := by
  simp only [initialBalances, weth_balance_eq p hp, lusd_balance_eq]

/-- The quotient bounds of the oracle-priced amount: it is the floor of
`3 * 10^40 / r` for the rescaled price `r`. -/
theorem weth_quotient_bounds (p : Int) (hp : 0 < p) :
    (3 * 10 ^ 40) / (p * 10 ^ 10) * (p * 10 ^ 10) ≤ 3 * 10 ^ 40 ∧
    (3 * 10 ^ 40 : Int) < ((3 * 10 ^ 40) / (p * 10 ^ 10) + 1) * (p * 10 ^ 10) := by
  have hr : (0 : Int) < p * 10 ^ 10 := by positivity
  exact ⟨Int.ediv_mul_le _ (ne_of_gt hr), Int.lt_ediv_add_one_mul_self _ hr⟩

/-- C2: for every positive oracle answer `p`, with `r = p * 10^10`, the planned
amounts satisfy
`0 <= lusd_balance * 10^18 * weights[1] - weth_balance * r * weights[0] < r * weights[0]`:
the value ratio equals the weight ratio up to less than one smallest unit of the
oracle-priced token. -/
theorem funding_plan_keeps_weights (p : Int) (hp : 0 < p) :
    ∃ lusd weth w0 w1, initialBalances tokens weights p = .ok [lusd, weth] ∧
      weights = [w0, w1] ∧
      0 ≤ lusd * 10 ^ 18 * w1 - weth * (p * 10 ^ 10) * w0 ∧
      lusd * 10 ^ 18 * w1 - weth * (p * 10 ^ 10) * w0 < (p * 10 ^ 10) * w0 := by
  obtain ⟨hlo, hhi⟩ := weth_quotient_bounds p hp
  refine ⟨_, _, _, _, initialBalances_eq p hp, weights_eq, ?_, ?_⟩
  · nlinarith
  · nlinarith

theorem funding_plan_keeps_weights_witness :
    ∃ lusd weth w0 w1, initialBalances tokens weights 200000000000 = .ok [lusd, weth] ∧
      weights = [w0, w1] ∧
      0 ≤ lusd * 10 ^ 18 * w1 - weth * (200000000000 * 10 ^ 10) * w0 ∧
      lusd * 10 ^ 18 * w1 - weth * (200000000000 * 10 ^ 10) * w0
        < (200000000000 * 10 ^ 10) * w0 :=
  funding_plan_keeps_weights 200000000000 (by norm_num)

/-- C9: the weights sum to `10^18`, and for every positive oracle answer `p`, with
`r = p * 10^10`, the value of the plan lies in
`(INITIAL_FUNDING * 10^18 - r, INITIAL_FUNDING * 10^18]`: it never exceeds the target
and misses it by less than one smallest unit of the oracle-priced token. -/
theorem funding_plan_total_value (p : Int) (hp : 0 < p) :
    weights.sum = 10 ^ 18 ∧
    ∃ lusd weth, initialBalances tokens weights p = .ok [lusd, weth] ∧
      INITIAL_FUNDING * 10 ^ 18 - p * 10 ^ 10 < lusd * 10 ^ 18 + weth * (p * 10 ^ 10) ∧
      lusd * 10 ^ 18 + weth * (p * 10 ^ 10) ≤ INITIAL_FUNDING * 10 ^ 18 := by
  obtain ⟨hlo, hhi⟩ := weth_quotient_bounds p hp
  refine ⟨by norm_num [weights_eq], _, _, initialBalances_eq p hp, ?_, ?_⟩
  · rw [INITIAL_FUNDING_eq]; nlinarith
  · rw [INITIAL_FUNDING_eq]; nlinarith

theorem funding_plan_total_value_witness :
    weights.sum = 10 ^ 18 ∧
    ∃ lusd weth, initialBalances tokens weights 200000000000 = .ok [lusd, weth] ∧
      INITIAL_FUNDING * 10 ^ 18 - 200000000000 * 10 ^ 10
        < lusd * 10 ^ 18 + weth * (200000000000 * 10 ^ 10) ∧
      lusd * 10 ^ 18 + weth * (200000000000 * 10 ^ 10) ≤ INITIAL_FUNDING * 10 ^ 18 :=
  funding_plan_total_value 200000000000 (by norm_num)

end BalancerPoolDeployment

namespace BalancerPoolDeployment

/-- C7, as stated, fails: at the oracle answer `2000 * 10^8`, swapping the two tokens
together with their weights yields `[3 * 10^22, 10^19]`, which is neither the reversed
plan `[15 * 10^18, 2 * 10^22]` nor the plan of the specification for the swapped
lists: the amount at index 0 is priced 1:1 although the token at index 0 is now the
oracle-priced one. -/
theorem swapped_order_mismatch :
    initialBalances tokens weights (2000 * 10 ^ 8) = .ok [2 * 10 ^ 22, 15 * 10 ^ 18] ∧
    initialBalances tokens.reverse weights.reverse (2000 * 10 ^ 8)
      = .ok [3 * 10 ^ 22, 10 ^ 19] ∧
    specFundingPlan tokens.reverse weights.reverse (2000 * 10 ^ 8)
      = [15 * 10 ^ 18, 2 * 10 ^ 22] ∧
    ¬ (initialBalances tokens.reverse weights.reverse (2000 * 10 ^ 8)
        = (initialBalances tokens weights (2000 * 10 ^ 8)).map List.reverse) ∧
    ¬ (initialBalances tokens.reverse weights.reverse (2000 * 10 ^ 8)
        = .ok (specFundingPlan tokens.reverse weights.reverse (2000 * 10 ^ 8))) := by
  have h1 : initialBalances tokens weights (2000 * 10 ^ 8)
      = .ok [2 * 10 ^ 22, 15 * 10 ^ 18] := by
    rw [initialBalances_eq _ (by norm_num)]; norm_num
  have h2 : initialBalances tokens.reverse weights.reverse (2000 * 10 ^ 8)
      = .ok [3 * 10 ^ 22, 10 ^ 19] := by
    simp only [initialBalances, weth_balance, lusd_balance, index, weights_eq,
      INITIAL_FUNDING_eq, BigNumber.mul, BigNumber.div, eth_price_eq, toBigNum, dec]
    norm_num
    constructor <;> rfl
  have h3 : specFundingPlan tokens.reverse weights.reverse (2000 * 10 ^ 8)
      = [15 * 10 ^ 18, 2 * 10 ^ 22] := by
    simp only [specFundingPlan, specReferencePrice, tokens, weights_eq, INITIAL_FUNDING_eq]
    simp [OCEAN, LUSD]
    constructor <;> rfl
  refine ⟨h1, h2, h3, ?_, ?_⟩
  · rw [h1, h2]; simp [Except.map]
  · rw [h2, h3]; simp

/-- C7, amended: whenever the fiat-pegged token LUSD is listed first, as in the
configured `tokens`, and the oracle answer is not zero, the plan of `main` is the plan
of the specification for that order, for any pair of weights and any second token:
the amount at index `i` is computed from `weights[i]` with the reference price of
`tokens[i]`. -/
theorem plan_matches_configured_order (other : Address) (w0 w1 p : Int)
    (hother : other ≠ LUSD) (hp : p ≠ 0) :
    initialBalances [LUSD, other] [w0, w1] p
      = .ok (specFundingPlan [LUSD, other] [w0, w1] p) ∧
    initialBalances tokens weights p = .ok (specFundingPlan tokens weights p) := by
  have h0 : p * 10 ^ 10 ≠ 0 := by positivity
  have hO : OCEAN ≠ LUSD := by decide
  constructor
  · simp [initialBalances, weth_balance, lusd_balance, index, BigNumber.mul,
      BigNumber.div, eth_price_eq, toBigNum, dec, specFundingPlan, specReferencePrice,
      hother, hp]
  · simp [initialBalances, weth_balance, lusd_balance, index, BigNumber.mul,
      BigNumber.div, eth_price_eq, toBigNum, dec, specFundingPlan, specReferencePrice,
      hO, hp, tokens, weights]

theorem plan_matches_configured_order_witness :
    OCEAN ≠ LUSD ∧ (200000000000 : Int) ≠ 0 ∧
    initialBalances [LUSD, OCEAN] [4 * 10 ^ 17, 6 * 10 ^ 17] 200000000000
      = .ok (specFundingPlan [LUSD, OCEAN] [4 * 10 ^ 17, 6 * 10 ^ 17] 200000000000) :=
  ⟨by decide, by decide,
    (plan_matches_configured_order OCEAN (4 * 10 ^ 17) (6 * 10 ^ 17) 200000000000
      (by decide) (by decide)).1⟩

end BalancerPoolDeployment

/-! ## Properties of the runs of `main` -/

namespace BalancerPoolDeployment

/-! ### Stepping through a script -/

theorem bind_eq {α β : Type} (m : Script α) (f : α → Script β) :
    (m >>= f) = Script.bind m f := rfl

theorem pure_eq {α : Type} (a : α) : (pure a : Script α) = Script.pure a := rfl

theorem pure_bind_run {α β : Type} (a : α) (f : α → Script β) (t : List Event) :
    Script.bind (Script.pure a) f t = f a t := rfl

theorem remote_some_bind {α β : Type} (c : Call) (a : α) (f : α → Script β)
    (t : List Event) :
    Script.bind (remote c (some a)) f t = f a (t ++ [Event.call c true]) := rfl

theorem remote_none_bind {α β : Type} (c : Call) (f : α → Script β) (t : List Event) :
    Script.bind (remote c none) f t
      = (.error .rejected, t ++ [Event.call c false]) := rfl

theorem defined_some_bind {α β : Type} (a : α) (e : ScriptError) (f : α → Script β)
    (t : List Event) :
    Script.bind (defined (some a) e) f t = f a t := rfl

theorem defined_none_bind {α β : Type} (e : ScriptError) (f : α → Script β)
    (t : List Event) :
    Script.bind (defined (none : Option α) e) f t = (.error e, t) := rfl

theorem newContract_some_bind {β : Type} (a : Address) (f : Address → Script β)
    (t : List Event) :
    Script.bind (newContract (some a)) f t = f a t := rfl

theorem newContract_none_bind {β : Type} (f : Address → Script β) (t : List Event) :
    Script.bind (newContract none) f t = (.error .invalidArgument, t) := rfl

theorem liftExcept_ok_bind {α β : Type} (a : α) (f : α → Script β) (t : List Event) :
    Script.bind (liftExcept (.ok a)) f t = f a t := rfl

theorem liftExcept_error_bind {α β : Type} (e : ScriptError) (f : α → Script β)
    (t : List Event) :
    Script.bind (liftExcept (.error e : Except ScriptError α)) f t = (.error e, t) := rfl

theorem emit_bind {β : Type} (e : Event) (f : Unit → Script β) (t : List Event) :
    Script.bind (emit e) f t = f () (t ++ [e]) := rfl

theorem logBN_bind {β : Type} (label : String) (x : BigNumber) (f : Unit → Script β)
    (t : List Event) :
    Script.bind (logBN label x) f t = f () (t ++ [Event.logBN label x]) := rfl

theorem logBN_run (label : String) (x : BigNumber) (t : List Event) :
    logBN label x t = (.ok (), t ++ [Event.logBN label x]) := rfl

theorem uint256_some (n : Nat) : uint256 (some n) = some (n : Int) := rfl

theorem uint256_none : uint256 none = none := rfl

/-- Everything before the first event satisfying `p` is an initial segment of what
precedes any given event satisfying `p`. -/
theorem takeWhile_initial_of_split (p : Event → Bool) (pre post : List Event) (e : Event)
    (he : p e = true) :
    (pre ++ e :: post).takeWhile (fun x => !p x) <+: pre := by
  induction pre with
  | nil => simp [List.takeWhile, he]
  | cons x pre ih =>
    by_cases hx : p x = true
    · simp [List.takeWhile, hx]
    · have hx2 : p x = false := by simpa using hx
      simp [List.takeWhile, hx2, ih]

/-! ### What a script can add to the trace -/

theorem emits_pure {α : Type} (P : Event → Prop) (a : α) :
    Script.Emits P (Script.pure a) := by
  intro t
  exact ⟨[], by simp [Script.pure], by simp⟩

theorem emits_remote {α : Type} {P : Event → Prop} (c : Call) (answer : Option α)
    (h : ∀ r, P (Event.call c r)) : Script.Emits P (remote c answer) := by
  intro t
  cases answer with
  | none => exact ⟨[Event.call c false], rfl, by simpa using h false⟩
  | some a => exact ⟨[Event.call c true], rfl, by simpa using h true⟩

theorem emits_emit {P : Event → Prop} (e : Event) (h : P e) : Script.Emits P (emit e) := by
  intro t
  exact ⟨[e], rfl, by simpa using h⟩

theorem emits_logBN {P : Event → Prop} (label : String) (x : BigNumber)
    (h : P (Event.logBN label x)) : Script.Emits P (logBN label x) :=
  emits_emit _ h

theorem emits_bind {α β : Type} {P : Event → Prop} {m : Script α} {f : α → Script β}
    (hm : Script.Emits P m) (hf : ∀ a, Script.Emits P (f a)) :
    Script.Emits P (Script.bind m f) := by
  intro t
  obtain ⟨new1, h1, p1⟩ := hm t
  rcases hres : m t with ⟨r, t1⟩
  rw [hres] at h1
  simp only at h1
  subst h1
  cases r with
  | error e =>
    refine ⟨new1, ?_, p1⟩
    simp [Script.bind, hres]
  | ok a =>
    obtain ⟨new2, h2, p2⟩ := hf a (t ++ new1)
    refine ⟨new1 ++ new2, ?_, ?_⟩
    · simp [Script.bind, hres, h2]
    · intro e he
      rcases List.mem_append.1 he with h | h
      · exact p1 e h
      · exact p2 e h

/-- The trace of a finished run is the trace the script started from, followed by
events that satisfy `P`, when `P` also holds of the printed error. -/
theorem exit_trace_of_emits {P : Event → Prop} {m : Script Unit}
    (hm : Script.Emits P m) (hP : ∀ e, P (Event.consoleError e)) (t : List Event) :
    ∃ new, (exit (m t)).trace = t ++ new ∧ ∀ e ∈ new, P e := by
  obtain ⟨new, h, p⟩ := hm t
  rcases hres : m t with ⟨r, t1⟩
  rw [hres] at h
  simp only at h
  subst h
  cases r with
  | ok u => exact ⟨new, rfl, p⟩
  | error e =>
    refine ⟨new ++ [Event.consoleError e], by simp [exit], ?_⟩
    intro x hx
    rcases List.mem_append.1 hx with h | h
    · exact p x h
    · rw [List.mem_singleton.1 h]
      exact hP e

set_option maxHeartbeats 1000000 in
/-- The balance step of lines 136-139, for any earlier trace `T0` without deposits and
approvals and any continuation `K` that issues no deposit. -/
theorem ensure_balance_step (w : World) (T0 : List Event) (K : PUnit → Script Unit)
    (current weth : Int)
    (h0 : T0.all (fun e => !isDeposit e && !isApprove e) = true)
    (hK : ∀ u, Script.Emits (fun e => isDeposit e = false) (K u)) :
    ∀ t, (exit ((if BigNumber.lt current weth = true then
          Script.bind (remote (Call.deposit OCEAN (BigNumber.sub weth current)) w.deposit)
            fun txDepositWeth =>
            Script.bind (remote (Call.wait txDepositWeth) w.depositWait) fun _ =>
              Script.bind (Script.pure PUnit.unit) K
        else Script.bind (Script.pure PUnit.unit) K) T0)).trace = t →
      ((∃ e ∈ t, isDeposit e = true) ↔ current < weth) ∧
      (∀ e ∈ t, isDeposit e = true →
        0 < weth - current ∧ ∃ r, e = Event.call (.deposit OCEAN (weth - current)) r) ∧
      t.countP isDeposit ≤ 1 ∧
      ((∃ e ∈ t, isApprove e = true) → current < weth →
        ∃ txDeposit, w.deposit = some txDeposit ∧
          List.Sublist [Event.call (.deposit OCEAN (weth - current)) true,
            Event.call (.wait txDeposit) true] (t.takeWhile (fun x => !isApprove x))) := by
  have hd0 : ∀ e ∈ T0, isDeposit e = false := by
    intro e he
    have := List.all_eq_true.1 h0 e he
    simp only [Bool.and_eq_true, Bool.not_eq_true'] at this
    exact this.1
  have ha0 : ∀ e ∈ T0, isApprove e = false := by
    intro e he
    have := List.all_eq_true.1 h0 e he
    simp only [Bool.and_eq_true, Bool.not_eq_true'] at this
    exact this.2
  have hc0 : T0.countP isDeposit = 0 := by
    rw [List.countP_eq_zero]
    intro e he
    simp [hd0 e he]
  have htw : ∀ rest, (T0 ++ rest).takeWhile (fun x => !isApprove x)
      = T0 ++ rest.takeWhile (fun x => !isApprove x) := by
    intro rest
    apply List.takeWhile_append_of_pos
    intro e he
    simp [ha0 e he]
  intro t ht
  subst ht
  by_cases hlt : current < weth
  · rw [if_pos (by simpa [BigNumber.lt] using hlt)]
    have hpos : 0 < weth - current := sub_pos.2 hlt
    rcases hdep : w.deposit with _ | dep
    · rw [remote_none_bind]
      simp only [exit, BigNumber.sub]
      refine ⟨?_, ?_, ?_, ?_⟩
      · exact ⟨fun _ => hlt, fun _ => ⟨Event.call (.deposit OCEAN (weth - current)) false,
          by simp, rfl⟩⟩
      · intro e he hd
        simp only [List.mem_append, List.mem_singleton] at he
        rcases he with (he | he) | he
        · rw [hd0 e he] at hd
          exact absurd hd (by simp)
        · exact ⟨hpos, false, he⟩
        · rw [he] at hd
          exact absurd hd (by simp [isDeposit, Event.remoteCall])
      · simp [List.countP_append, hc0, List.countP_cons, isDeposit, Event.remoteCall,
          Call.isDeposit]
      · rintro ⟨e, he, happ⟩ _
        simp only [List.mem_append, List.mem_singleton] at he
        rcases he with (he | he) | he
        · rw [ha0 e he] at happ
          exact absurd happ (by simp)
        · rw [he] at happ
          exact absurd happ (by simp [isApprove, Event.remoteCall, Call.isApprove])
        · rw [he] at happ
          exact absurd happ (by simp [isApprove, Event.remoteCall])
    rw [remote_some_bind]
    rcases hdepw : w.depositWait with _ | depw
    · rw [remote_none_bind]
      simp only [exit, BigNumber.sub]
      refine ⟨?_, ?_, ?_, ?_⟩
      · exact ⟨fun _ => hlt, fun _ => ⟨Event.call (.deposit OCEAN (weth - current)) true,
          by simp, rfl⟩⟩
      · intro e he hd
        simp only [List.mem_append, List.mem_singleton] at he
        rcases he with ((he | he) | he) | he
        · rw [hd0 e he] at hd
          exact absurd hd (by simp)
        · exact ⟨hpos, true, he⟩
        · rw [he] at hd
          exact absurd hd (by simp [isDeposit, Event.remoteCall, Call.isDeposit])
        · rw [he] at hd
          exact absurd hd (by simp [isDeposit, Event.remoteCall])
      · simp [List.countP_append, hc0, List.countP_cons, isDeposit, Event.remoteCall,
          Call.isDeposit]
      · rintro ⟨e, he, happ⟩ _
        simp only [List.mem_append, List.mem_singleton] at he
        rcases he with ((he | he) | he) | he
        · rw [ha0 e he] at happ
          exact absurd happ (by simp)
        · rw [he] at happ
          exact absurd happ (by simp [isApprove, Event.remoteCall, Call.isApprove])
        · rw [he] at happ
          exact absurd happ (by simp [isApprove, Event.remoteCall, Call.isApprove])
        · rw [he] at happ
          exact absurd happ (by simp [isApprove, Event.remoteCall])
    rw [remote_some_bind, pure_bind_run]
    obtain ⟨new, hnew, hpn⟩ := exit_trace_of_emits (hK PUnit.unit) (fun _ => rfl)
      (T0 ++ [Event.call (Call.deposit OCEAN (BigNumber.sub weth current)) true]
        ++ [Event.call (Call.wait dep) true])
    rw [hnew]
    simp only [BigNumber.sub, List.append_assoc, List.cons_append, List.nil_append]
    refine ⟨?_, ?_, ?_, ?_⟩
    · exact ⟨fun _ => hlt, fun _ => ⟨Event.call (.deposit OCEAN (weth - current)) true,
        by simp, rfl⟩⟩
    · intro e he hd
      simp only [List.mem_append, List.mem_cons] at he
      rcases he with he | he | he | he
      · rw [hd0 e he] at hd
        exact absurd hd (by simp)
      · exact ⟨hpos, true, he⟩
      · rw [he] at hd
        exact absurd hd (by simp [isDeposit, Event.remoteCall, Call.isDeposit])
      · rw [hpn e he] at hd
        exact absurd hd (by simp)
    · have hcn : new.countP isDeposit = 0 := by
        rw [List.countP_eq_zero]
        intro e he
        simp [hpn e he]
      simp [List.countP_append, hc0, hcn, List.countP_cons, isDeposit, Event.remoteCall,
        Call.isDeposit]
    · intro _ _
      refine ⟨dep, rfl, ?_⟩
      rw [htw]
      refine List.Sublist.trans ?_ (List.sublist_append_right _ _)
      simp only [List.takeWhile, isApprove, Event.remoteCall, Call.isApprove, Bool.not_false]
      exact List.Sublist.cons₂ _ (List.Sublist.cons₂ _ (List.nil_sublist _))
  · rw [if_neg (by simpa [BigNumber.lt] using hlt), pure_bind_run]
    obtain ⟨new, hnew, hpn⟩ := exit_trace_of_emits (hK PUnit.unit) (fun _ => rfl) T0
    rw [hnew]
    have hall : ∀ e ∈ T0 ++ new, isDeposit e = false := by
      intro e he
      rcases List.mem_append.1 he with h | h
      · exact hd0 e h
      · exact hpn e h
    refine ⟨?_, ?_, ?_, ?_⟩
    · constructor
      · rintro ⟨e, he, hd⟩
        rw [hall e he] at hd
        exact absurd hd (by simp)
      · intro h
        exact absurd h hlt
    · intro e he hd
      rw [hall e he] at hd
      exact absurd hd (by simp)
    · have : (T0 ++ new).countP isDeposit = 0 := by
        rw [List.countP_eq_zero]
        intro e he
        simp [hall e he]
      omega
    · intro _ h
      exact absurd h hlt

/-- C4: when the receipt of `factory.create` has no `PoolCreated` event, the run
consists of `getSigners`, `create` and the confirmation wait, then fails at the pool
address extraction and exits with status 1: no `getPoolId`, `latestAnswer`,
`balanceOf`, `deposit`, `approve` or `joinPool` is issued. -/
theorem missing_pool_event_aborts (w : World) (signer : Signer) (others : List Signer)
    (tx1 : Tx) (receipt1 : Receipt)
    (hsigners : w.getSigners = some (signer :: others))
    (hcreate : w.create = some tx1)
    (hreceipt : w.createWait = some receipt1)
    (hnone : ∀ e ∈ receipt1.events, e.event ≠ some "PoolCreated") :
    run w = ⟨[Event.call .getSigners true,
        Event.call (.create ORACLE_POOL_FACTORY NAME SYMBOL tokens weights swapFeePercentage
          true DELEGATE_OWNER) true,
        Event.call (.wait tx1) true,
        Event.consoleError .typeError], 1⟩ ∧
    (run w).exitCode = 1 ∧
    ∀ c r, Event.call c r ∈ (run w).trace →
      c = .getSigners ∨
      c = .create ORACLE_POOL_FACTORY NAME SYMBOL tokens weights swapFeePercentage true
        DELEGATE_OWNER ∨
      c = .wait tx1 := by
  have hfilter :
      receipt1.events.filter (fun e => decide (e.event = some "PoolCreated")) = [] := by
    simp only [List.filter_eq_nil_iff, decide_eq_true_eq]
    exact hnone
  have hrun : run w = ⟨[Event.call .getSigners true,
        Event.call (.create ORACLE_POOL_FACTORY NAME SYMBOL tokens weights swapFeePercentage
          true DELEGATE_OWNER) true,
        Event.call (.wait tx1) true,
        Event.consoleError .typeError], 1⟩ := by
    simp only [run, exit, main, mainWith, bind_eq, hsigners, hcreate, hreceipt, hfilter,
      remote_some_bind, List.getElem?_cons_zero, List.getElem?_nil, defined_some_bind,
      defined_none_bind, List.nil_append, List.cons_append]
  refine ⟨hrun, by rw [hrun], ?_⟩
  intro c r hmem
  rw [hrun] at hmem
  simp only [List.mem_cons, List.mem_singleton, Event.call.injEq, reduceCtorEq,
    List.not_mem_nil, or_false] at hmem
  rcases hmem with ⟨h, _⟩ | ⟨h, _⟩ | ⟨h, _⟩
  · exact Or.inl h
  · exact Or.inr (Or.inl h)
  · exact Or.inr (Or.inr h)

theorem missing_pool_event_aborts_witness :
    run noEventWorld = ⟨[Event.call .getSigners true,
        Event.call (.create ORACLE_POOL_FACTORY NAME SYMBOL tokens weights swapFeePercentage
          true DELEGATE_OWNER) true,
        Event.call (.wait ⟨1⟩) true,
        Event.consoleError .typeError], 1⟩ ∧
    (run noEventWorld).exitCode = 1 ∧
    ∀ c r, Event.call c r ∈ (run noEventWorld).trace →
      c = .getSigners ∨
      c = .create ORACLE_POOL_FACTORY NAME SYMBOL tokens weights swapFeePercentage true
        DELEGATE_OWNER ∨
      c = .wait ⟨1⟩ :=
  missing_pool_event_aborts noEventWorld ⟨"0xDeployer"⟩ [] ⟨1⟩
    ⟨1, [⟨none, none⟩, ⟨some "Transfer", none⟩]⟩ rfl rfl rfl (by decide)

/-- The plan of a positive oracle answer fits the ABI coder. -/
theorem encodeUserData_plan (p : Int) (hp : 0 < p) :
    encodeUserData JOIN_KIND_INIT [2 * 10 ^ 22, (3 * 10 ^ 40) / (p * 10 ^ 10)]
      = .ok [0, 64, 2, 2 * 10 ^ 22, (3 * 10 ^ 40) / (p * 10 ^ 10)] := by
  have hr : (0 : Int) < p * 10 ^ 10 := by positivity
  have h0 : (0 : Int) ≤ (3 * 10 ^ 40) / (p * 10 ^ 10) :=
    Int.ediv_nonneg (by norm_num) (le_of_lt hr)
  have h1 : (3 * 10 ^ 40 : Int) / (p * 10 ^ 10) ≤ 3 * 10 ^ 40 :=
    Int.ediv_le_self _ (by norm_num)
  have h2 : (3 * 10 ^ 40 : Int) / (p * 10 ^ 10) < uint256Bound := by
    have : (3 * 10 ^ 40 : Int) < uint256Bound := by norm_num [uint256Bound]
    exact lt_of_le_of_lt h1 this
  have h3 : (2 * 10 ^ 22 : Int) < uint256Bound := by norm_num [uint256Bound]
  have h4 : (0 : Int) < uint256Bound := by norm_num [uint256Bound]
  simp only [encodeUserData, JOIN_KIND_INIT, List.all_cons, List.all_nil, Bool.and_true,
    Bool.and_eq_true, decide_eq_true_eq]
  rw [if_pos ⟨⟨le_refl _, h4⟩, ⟨by norm_num, h3⟩, ⟨h0, h2⟩⟩]
  rfl

/-- With `WETH_ABI` unresolved, as the source file leaves it, every normal world with a
positive oracle answer ends at line 131: the plan is logged, then the run throws a
`ReferenceError` and exits with status 1, before any `balanceOf`, `deposit`, `approve`
or `joinPool`. -/
theorem run_normalWorld_unresolved (p : Int) (balance : Nat) (hp : 0 < p) :
    run (normalWorld p balance none) = ⟨[Event.call .getSigners true,
        Event.call (.create ORACLE_POOL_FACTORY NAME SYMBOL tokens weights swapFeePercentage
          true DELEGATE_OWNER) true,
        Event.call (.wait ⟨1⟩) true,
        Event.call (.getPoolId "0xPool") true,
        Event.call (.latestAnswer CHAINLINK_ETHUSD_PROXY) true,
        Event.logBN "ETH price" (p * 10 ^ 10),
        Event.logBN "Initial LUSD" (2 * 10 ^ 22),
        Event.logBN "Initial OCEAN" ((3 * 10 ^ 40) / (p * 10 ^ 10)),
        Event.consoleError .referenceError], 1⟩ := by
  have hfilter : List.filter (fun e => decide (e.event = some "PoolCreated"))
      [(⟨none, none⟩ : ReceiptEvent), ⟨some "PoolCreated", some ⟨some "0xPool"⟩⟩]
      = [⟨some "PoolCreated", some ⟨some "0xPool"⟩⟩] := by decide
  simp only [run, exit, main, mainWith, normalWorld, bind_eq, remote_some_bind,
    List.getElem?_cons_zero, defined_some_bind, defined_none_bind, hfilter,
    newContract_some_bind, logBN_bind, weth_balance_eq p hp, lusd_balance_eq,
    encodeUserData_plan p hp, liftExcept_ok_bind, eth_price_eq, List.nil_append,
    List.cons_append, List.append_assoc]

/-- C6 fails on the code: in the normal world at the oracle answer 2000 USD, in which
nothing binds the identifier `WETH_ABI` (the situation the source file creates), the run
stops with a `ReferenceError` after logging the plan and exits with status 1; no
`joinPool` call is ever submitted. -/
theorem join_not_reached_in_normal_run :
    run (normalWorld 200000000000 0 none) = ⟨[Event.call .getSigners true,
        Event.call (.create ORACLE_POOL_FACTORY NAME SYMBOL tokens weights swapFeePercentage
          true DELEGATE_OWNER) true,
        Event.call (.wait ⟨1⟩) true,
        Event.call (.getPoolId "0xPool") true,
        Event.call (.latestAnswer CHAINLINK_ETHUSD_PROXY) true,
        Event.logBN "ETH price" 2000000000000000000000,
        Event.logBN "Initial LUSD" 20000000000000000000000,
        Event.logBN "Initial OCEAN" 15000000000000000000,
        Event.consoleError .referenceError], 1⟩ ∧
    (run (normalWorld 200000000000 0 none)).trace.countP isJoinPool = 0 := by
  have h := run_normalWorld_unresolved 200000000000 0 (by norm_num)
  norm_num at h
  rw [h]
  exact ⟨rfl, rfl⟩

set_option maxHeartbeats 2000000 in
/-- C3: in every run of `main`, whatever the remote systems answer, a `vault.joinPool`
call is preceded, in this order, by `approve(VAULT, weth_balance)` on the non-pegged
token, the confirmation of that transaction, `approve(VAULT, lusd_balance)` on LUSD and
the confirmation of that transaction, all four having returned. The approved amounts
are the planned ones, `weth_balance` and `lusd_balance`, which are also the
`maxAmountsIn` of the join request, and no approval in the run grants anything else. -/
theorem approvals_confirmed_before_join (w : World) (pre post : List Event)
    (vault : Address) (poolId : PoolId) (sender recipient : Address)
    (request : JoinPoolRequest) (returned : Bool)
    (h : (run w).trace
      = pre ++ Event.call (.joinPool vault poolId sender recipient request) returned :: post) :
    ∃ lusd weth txWeth txLusd,
      request.maxAmountsIn = [lusd, weth] ∧
      (∃ p, w.latestAnswer = some p ∧ initialBalances tokens weights p = .ok [lusd, weth]) ∧
      w.approveWeth = some txWeth ∧ w.approveLusd = some txLusd ∧
      List.Sublist
        [Event.call (.approve OCEAN VAULT weth) true, Event.call (.wait txWeth) true,
         Event.call (.approve LUSD VAULT lusd) true, Event.call (.wait txLusd) true] pre ∧
      ∀ token spender amount r,
        Event.call (.approve token spender amount) r ∈ (run w).trace →
        spender = VAULT ∧ ((token = OCEAN ∧ amount = weth) ∨ (token = LUSD ∧ amount = lusd)) := by
  have hmem : Event.call (.joinPool vault poolId sender recipient request) returned
      ∈ (run w).trace := by rw [h]; simp
  have hpre : (run w).trace.takeWhile (fun x => !isJoinPool x) <+: pre := by
    rw [h]; exact takeWhile_initial_of_split isJoinPool _ _ _ rfl
  clear h
  suffices key : ∀ t, (run w).trace = t →
      Event.call (.joinPool vault poolId sender recipient request) returned ∈ t →
      t.takeWhile (fun x => !isJoinPool x) <+: pre →
      ∃ lusd weth txWeth txLusd,
        request.maxAmountsIn = [lusd, weth] ∧
        (∃ p, w.latestAnswer = some p ∧ initialBalances tokens weights p = .ok [lusd, weth]) ∧
        w.approveWeth = some txWeth ∧ w.approveLusd = some txLusd ∧
        List.Sublist
          [Event.call (.approve OCEAN VAULT weth) true, Event.call (.wait txWeth) true,
           Event.call (.approve LUSD VAULT lusd) true, Event.call (.wait txLusd) true] pre ∧
        ∀ token spender amount r,
          Event.call (.approve token spender amount) r ∈ t →
          spender = VAULT ∧ ((token = OCEAN ∧ amount = weth) ∨ (token = LUSD ∧ amount = lusd)) from
    key _ rfl hmem hpre
  clear hmem hpre
  simp only [run, main, mainWith, bind_eq, pure_eq]
  rcases hgs : w.getSigners with _ | signers
  · rw [remote_none_bind]
    simp only [exit, List.append_assoc, List.cons_append, List.nil_append]
    intro t ht hmem
    subst ht
    simp at hmem
  rw [remote_some_bind]
  rcases signers with _ | ⟨signer, others⟩
  · rw [List.getElem?_nil, defined_none_bind]
    simp only [exit, List.append_assoc, List.cons_append, List.nil_append]
    intro t ht hmem
    subst ht
    simp at hmem
  rw [List.getElem?_cons_zero, defined_some_bind]
  rcases hcr : w.create with _ | tx1
  · rw [remote_none_bind]
    simp only [exit, List.append_assoc, List.cons_append, List.nil_append]
    intro t ht hmem
    subst ht
    simp at hmem
  rw [remote_some_bind]
  rcases hcrw : w.createWait with _ | receipt1
  · rw [remote_none_bind]
    simp only [exit, List.append_assoc, List.cons_append, List.nil_append]
    intro t ht hmem
    subst ht
    simp at hmem
  rw [remote_some_bind]
  rcases hf : receipt1.events.filter (fun e => decide (e.event = some "PoolCreated"))
    with _ | ⟨first, more⟩
  · rw [hf, List.getElem?_nil, defined_none_bind]
    simp only [exit, List.append_assoc, List.cons_append, List.nil_append]
    intro t ht hmem
    subst ht
    simp at hmem
  rw [hf, List.getElem?_cons_zero, defined_some_bind]
  rcases hargs : first.args with _ | args
  · rw [defined_none_bind]
    simp only [exit, List.append_assoc, List.cons_append, List.nil_append]
    intro t ht hmem
    subst ht
    simp at hmem
  rw [defined_some_bind]
  rcases hpool : args.pool with _ | pool
  · rw [newContract_none_bind]
    simp only [exit, List.append_assoc, List.cons_append, List.nil_append]
    intro t ht hmem
    subst ht
    simp at hmem
  rw [newContract_some_bind]
  rcases hgp : w.getPoolId with _ | gp
  · rw [remote_none_bind]
    simp only [exit, List.append_assoc, List.cons_append, List.nil_append]
    intro t ht hmem
    subst ht
    simp at hmem
  rw [remote_some_bind]
  rcases hla : w.latestAnswer with _ | p
  · rw [remote_none_bind]
    simp only [exit, List.append_assoc, List.cons_append, List.nil_append]
    intro t ht hmem
    subst ht
    simp at hmem
  rw [remote_some_bind, logBN_bind]
  rcases hwb : weth_balance weights p with e | weth
  · rw [liftExcept_error_bind]
    simp only [exit, List.append_assoc, List.cons_append, List.nil_append]
    intro t ht hmem
    subst ht
    simp at hmem
  rw [liftExcept_ok_bind]
  rcases hlb : lusd_balance weights with e | lusd
  · rw [liftExcept_error_bind]
    simp only [exit, List.append_assoc, List.cons_append, List.nil_append]
    intro t ht hmem
    subst ht
    simp at hmem
  rw [liftExcept_ok_bind, logBN_bind, logBN_bind]
  rcases henc : encodeUserData JOIN_KIND_INIT [lusd, weth] with e | data
  · rw [liftExcept_error_bind]
    simp only [exit, List.append_assoc, List.cons_append, List.nil_append]
    intro t ht hmem
    subst ht
    simp at hmem
  rw [liftExcept_ok_bind]
  rcases habi : w.WETH_ABI with _ | ⟨⟩
  · rw [defined_none_bind]
    simp only [exit, List.append_assoc, List.cons_append, List.nil_append]
    intro t ht hmem
    subst ht
    simp at hmem
  rw [defined_some_bind]
  rcases hb1 : w.balanceOfLogged with _ | b1
  · rw [uint256_none, remote_none_bind]
    simp only [exit, List.append_assoc, List.cons_append, List.nil_append]
    intro t ht hmem
    subst ht
    simp at hmem
  rw [uint256_some, remote_some_bind, logBN_bind]
  rcases hb2 : w.balanceOf with _ | b2
  · rw [uint256_none, remote_none_bind]
    simp only [exit, List.append_assoc, List.cons_append, List.nil_append]
    intro t ht hmem
    subst ht
    simp at hmem
  rw [uint256_some, remote_some_bind]
  by_cases hlt : (b2 : Int) < weth
  · rw [if_pos (by simpa [BigNumber.lt] using hlt)]
    rcases hdep : w.deposit with _ | dep
    · rw [remote_none_bind]
      simp only [exit, List.append_assoc, List.cons_append, List.nil_append]
      intro t ht hmem
      subst ht
      simp at hmem
    rw [remote_some_bind]
    rcases hdepw : w.depositWait with _ | depw
    · rw [remote_none_bind]
      simp only [exit, List.append_assoc, List.cons_append, List.nil_append]
      intro t ht hmem
      subst ht
      simp at hmem
    rw [remote_some_bind, pure_bind_run]
    rcases hb3 : w.balanceOfAfter with _ | b3
    · rw [uint256_none, remote_none_bind]
      simp only [exit, List.append_assoc, List.cons_append, List.nil_append]
      intro t ht hmem
      subst ht
      simp at hmem
    rw [uint256_some, remote_some_bind, logBN_bind]
    rcases haw : w.approveWeth with _ | aw
    · rw [remote_none_bind]
      simp only [exit, List.append_assoc, List.cons_append, List.nil_append]
      intro t ht hmem
      subst ht
      simp at hmem
    rw [remote_some_bind]
    rcases haww : w.approveWethWait with _ | aww
    · rw [remote_none_bind]
      simp only [exit, List.append_assoc, List.cons_append, List.nil_append]
      intro t ht hmem
      subst ht
      simp at hmem
    rw [remote_some_bind]
    rcases hal : w.approveLusd with _ | al
    · rw [remote_none_bind]
      simp only [exit, List.append_assoc, List.cons_append, List.nil_append]
      intro t ht hmem
      subst ht
      simp at hmem
    rw [remote_some_bind]
    rcases halw : w.approveLusdWait with _ | alw
    · rw [remote_none_bind]
      simp only [exit, List.append_assoc, List.cons_append, List.nil_append]
      intro t ht hmem
      subst ht
      simp at hmem
    rw [remote_some_bind]
    rcases hjp : w.joinPool with _ | jp
    swap
    rw [remote_some_bind]
    rcases hjpw : w.joinPoolWait with _ | jpw
    swap
    rw [remote_some_bind, emit_bind]
    rcases hts : w.totalSupply with _ | ts
    swap
    rw [uint256_some, remote_some_bind, logBN_run]
    all_goals
      simp only [uint256_none, remote_none_bind, List.append_assoc, List.cons_append,
        List.nil_append, exit]
      intro t ht hmem hpre
      subst ht
      simp only [List.mem_cons, List.mem_singleton] at hmem
      simp at hmem
      simp only [isJoinPool, Event.remoteCall, Call.isJoinPool, List.takeWhile] at hpre
      simp at hpre
      obtain ⟨⟨rfl, rfl, rfl, rfl, rfl⟩, rfl⟩ := hmem
      refine ⟨lusd, weth, aw, al, rfl, ⟨p, rfl, ?_⟩, rfl, rfl, ?_, ?_⟩
      · simp [initialBalances, hwb, hlb]
      · exact (List.drop_sublist 15 _).trans hpre.sublist
      · intro token spender amount r happ
        simp only [List.mem_cons, List.mem_singleton] at happ
        simp at happ
        rcases happ with ⟨⟨h1, h2, h3⟩, _⟩ | ⟨⟨h1, h2, h3⟩, _⟩
        · exact ⟨h2, Or.inl ⟨h1, h3⟩⟩
        · exact ⟨h2, Or.inr ⟨h1, h3⟩⟩
  · rw [if_neg (by simpa [BigNumber.lt] using hlt), pure_bind_run]
    rcases hb3 : w.balanceOfAfter with _ | b3
    · rw [uint256_none, remote_none_bind]
      simp only [exit, List.append_assoc, List.cons_append, List.nil_append]
      intro t ht hmem
      subst ht
      simp at hmem
    rw [uint256_some, remote_some_bind, logBN_bind]
    rcases haw : w.approveWeth with _ | aw
    · rw [remote_none_bind]
      simp only [exit, List.append_assoc, List.cons_append, List.nil_append]
      intro t ht hmem
      subst ht
      simp at hmem
    rw [remote_some_bind]
    rcases haww : w.approveWethWait with _ | aww
    · rw [remote_none_bind]
      simp only [exit, List.append_assoc, List.cons_append, List.nil_append]
      intro t ht hmem
      subst ht
      simp at hmem
    rw [remote_some_bind]
    rcases hal : w.approveLusd with _ | al
    · rw [remote_none_bind]
      simp only [exit, List.append_assoc, List.cons_append, List.nil_append]
      intro t ht hmem
      subst ht
      simp at hmem
    rw [remote_some_bind]
    rcases halw : w.approveLusdWait with _ | alw
    · rw [remote_none_bind]
      simp only [exit, List.append_assoc, List.cons_append, List.nil_append]
      intro t ht hmem
      subst ht
      simp at hmem
    rw [remote_some_bind]
    rcases hjp : w.joinPool with _ | jp
    swap
    rw [remote_some_bind]
    rcases hjpw : w.joinPoolWait with _ | jpw
    swap
    rw [remote_some_bind, emit_bind]
    rcases hts : w.totalSupply with _ | ts
    swap
    rw [uint256_some, remote_some_bind, logBN_run]
    all_goals
      simp only [uint256_none, remote_none_bind, List.append_assoc, List.cons_append,
        List.nil_append, exit]
      intro t ht hmem hpre
      subst ht
      simp only [List.mem_cons, List.mem_singleton] at hmem
      simp at hmem
      simp only [isJoinPool, Event.remoteCall, Call.isJoinPool, List.takeWhile] at hpre
      simp at hpre
      obtain ⟨⟨rfl, rfl, rfl, rfl, rfl⟩, rfl⟩ := hmem
      refine ⟨lusd, weth, aw, al, rfl, ⟨p, rfl, ?_⟩, rfl, rfl, ?_, ?_⟩
      · simp [initialBalances, hwb, hlb]
      · exact (List.drop_sublist 13 _).trans hpre.sublist
      · intro token spender amount r happ
        simp only [List.mem_cons, List.mem_singleton] at happ
        simp at happ
        rcases happ with ⟨⟨h1, h2, h3⟩, _⟩ | ⟨⟨h1, h2, h3⟩, _⟩
        · exact ⟨h2, Or.inl ⟨h1, h3⟩⟩
        · exact ⟨h2, Or.inr ⟨h1, h3⟩⟩

/-- C5: in a run that reaches the balance check of line 136 with the balance `current`
and the planned amount `weth`, a `deposit` on the non-pegged token is issued if and
only if `current < weth`; there is at most one, its value is the shortfall
`weth - current`, which is positive, and whenever an `approve` is submitted in such a
run with a shortfall, the deposit and the confirmation of the deposit have both
returned before it. -/
theorem deposit_iff_shortfall (w : World) (signer : Signer) (others : List Signer)
    (tx1 : Tx) (receipt1 : Receipt) (first : ReceiptEvent) (more : List ReceiptEvent)
    (pool : Address) (poolId : PoolId) (p weth lusd : Int) (data : List Int)
    (logged current : Nat)
    (hsigners : w.getSigners = some (signer :: others))
    (hcreate : w.create = some tx1)
    (hreceipt : w.createWait = some receipt1)
    (hevent : receipt1.events.filter (fun e => decide (e.event = some "PoolCreated"))
      = first :: more)
    (hargs : first.args = some ⟨some pool⟩)
    (hpoolId : w.getPoolId = some poolId)
    (hanswer : w.latestAnswer = some p)
    (hweth : weth_balance weights p = .ok weth)
    (hlusd : lusd_balance weights = .ok lusd)
    (hdata : encodeUserData JOIN_KIND_INIT [lusd, weth] = .ok data)
    (habi : w.WETH_ABI = some ())
    (hlogged : w.balanceOfLogged = some logged)
    (hcurrent : w.balanceOf = some current) :
    ((∃ e ∈ (run w).trace, isDeposit e = true) ↔ (current : Int) < weth) ∧
    (∀ e ∈ (run w).trace, isDeposit e = true →
      0 < weth - current ∧ ∃ r, e = Event.call (.deposit OCEAN (weth - current)) r) ∧
    (run w).trace.countP isDeposit ≤ 1 ∧
    (∀ pre e post, (run w).trace = pre ++ e :: post → isApprove e = true →
      (current : Int) < weth →
      ∃ txDeposit, w.deposit = some txDeposit ∧
        List.Sublist [Event.call (.deposit OCEAN (weth - current)) true,
          Event.call (.wait txDeposit) true] pre) := by
  suffices key : ∀ t, (run w).trace = t →
      ((∃ e ∈ t, isDeposit e = true) ↔ (current : Int) < weth) ∧
      (∀ e ∈ t, isDeposit e = true →
        0 < weth - current ∧ ∃ r, e = Event.call (.deposit OCEAN (weth - current)) r) ∧
      t.countP isDeposit ≤ 1 ∧
      ((∃ e ∈ t, isApprove e = true) → (current : Int) < weth →
        ∃ txDeposit, w.deposit = some txDeposit ∧
          List.Sublist [Event.call (.deposit OCEAN (weth - current)) true,
            Event.call (.wait txDeposit) true] (t.takeWhile (fun x => !isApprove x))) by
    obtain ⟨k1, k2, k3, k4⟩ := key _ rfl
    refine ⟨k1, k2, k3, ?_⟩
    intro pre e post hsplit happ hlt
    obtain ⟨txDeposit, hdep, hsub⟩ := k4 ⟨e, by rw [hsplit]; simp, happ⟩ hlt
    refine ⟨txDeposit, hdep, hsub.trans ?_⟩
    rw [hsplit]
    exact (takeWhile_initial_of_split isApprove pre post e happ).sublist
  simp only [run, main, mainWith, bind_eq, pure_eq]
  rw [hsigners, remote_some_bind, List.getElem?_cons_zero, defined_some_bind, hcreate,
    remote_some_bind, hreceipt, remote_some_bind, hevent, List.getElem?_cons_zero,
    defined_some_bind, hargs, defined_some_bind, newContract_some_bind, hpoolId,
    remote_some_bind, hanswer, remote_some_bind, logBN_bind, hweth, liftExcept_ok_bind,
    hlusd, liftExcept_ok_bind, logBN_bind, logBN_bind, hdata, liftExcept_ok_bind, habi,
    defined_some_bind, hlogged, uint256_some, remote_some_bind, logBN_bind, hcurrent,
    uint256_some, remote_some_bind]
  refine ensure_balance_step w _ _ (current : Int) weth rfl ?_
  intro _
  refine emits_bind (emits_remote _ _ fun _ => rfl) fun _ => ?_
  refine emits_bind (emits_logBN _ _ rfl) fun _ => ?_
  refine emits_bind (emits_remote _ _ fun _ => rfl) fun _ => ?_
  refine emits_bind (emits_remote _ _ fun _ => rfl) fun _ => ?_
  refine emits_bind (emits_remote _ _ fun _ => rfl) fun _ => ?_
  refine emits_bind (emits_remote _ _ fun _ => rfl) fun _ => ?_
  refine emits_bind (emits_remote _ _ fun _ => rfl) fun _ => ?_
  refine emits_bind (emits_remote _ _ fun _ => rfl) fun _ => ?_
  refine emits_bind (emits_emit _ rfl) fun _ => ?_
  refine emits_bind (emits_remote _ _ fun _ => rfl) fun _ => ?_
  exact emits_logBN _ _ rfl

end BalancerPoolDeployment

namespace BalancerPoolDeployment

/-- With `WETH_ABI` resolved, every normal world with a positive oracle answer runs to
completion: the shortfall, if any, is deposited, both approvals are confirmed, exactly
one `joinPool` is submitted with the pool id, the signer as sender and recipient, the
token list, the plan as `maxAmountsIn`, the encoded `(0, plan)` as `userData` and
`fromInternalBalance = false`, its confirmation is awaited, and the exit status is 0. -/
theorem run_normalWorld_resolved (p : Int) (balance : Nat) (hp : 0 < p) :
    run (normalWorld p balance (some ())) = ⟨[Event.call .getSigners true,
        Event.call (.create ORACLE_POOL_FACTORY NAME SYMBOL tokens weights swapFeePercentage
          true DELEGATE_OWNER) true,
        Event.call (.wait ⟨1⟩) true,
        Event.call (.getPoolId "0xPool") true,
        Event.call (.latestAnswer CHAINLINK_ETHUSD_PROXY) true,
        Event.logBN "ETH price" (p * 10 ^ 10),
        Event.logBN "Initial LUSD" (2 * 10 ^ 22),
        Event.logBN "Initial OCEAN" ((3 * 10 ^ 40) / (p * 10 ^ 10)),
        Event.call (.balanceOf OCEAN "0xDeployer") true,
        Event.logBN "ocean balance: " balance,
        Event.call (.balanceOf OCEAN "0xDeployer") true]
      ++ (if (balance : Int) < (3 * 10 ^ 40) / (p * 10 ^ 10) then
            [Event.call (.deposit OCEAN ((3 * 10 ^ 40) / (p * 10 ^ 10) - balance)) true,
             Event.call (.wait ⟨2⟩) true]
          else [])
      ++ [Event.call (.balanceOf OCEAN "0xDeployer") true,
        Event.logBN "ocean balance: " balance,
        Event.call (.approve OCEAN VAULT ((3 * 10 ^ 40) / (p * 10 ^ 10))) true,
        Event.call (.wait ⟨3⟩) true,
        Event.call (.approve LUSD VAULT (2 * 10 ^ 22)) true,
        Event.call (.wait ⟨4⟩) true,
        Event.call (.joinPool VAULT "0xPoolId" "0xDeployer" "0xDeployer"
          ⟨tokens, [2 * 10 ^ 22, (3 * 10 ^ 40) / (p * 10 ^ 10)],
            [0, 64, 2, 2 * 10 ^ 22, (3 * 10 ^ 40) / (p * 10 ^ 10)], false⟩) true,
        Event.call (.wait ⟨5⟩) true,
        Event.consoleLog "Final tx status:" 1,
        Event.call (.totalSupply "0xPool") true,
        Event.logBN "Pool BPT tokens" 1000], 0⟩ := by
  have hfilter : List.filter (fun e => decide (e.event = some "PoolCreated"))
      [(⟨none, none⟩ : ReceiptEvent), ⟨some "PoolCreated", some ⟨some "0xPool"⟩⟩]
      = [⟨some "PoolCreated", some ⟨some "0xPool"⟩⟩] := by decide
  simp only [run, exit, main, mainWith, normalWorld, bind_eq, pure_eq, remote_some_bind,
    List.getElem?_cons_zero, defined_some_bind, hfilter, newContract_some_bind, logBN_bind,
    weth_balance_eq p hp, lusd_balance_eq, encodeUserData_plan p hp, liftExcept_ok_bind,
    eth_price_eq, uint256_some, List.nil_append]
  by_cases hlt : (balance : Int) < (3 * 10 ^ 40) / (p * 10 ^ 10)
  · simp only [BigNumber.lt, BigNumber.sub, hlt, decide_True, if_true, remote_some_bind,
      pure_bind_run, logBN_bind, logBN_run, emit_bind, uint256_some, List.append_assoc,
      List.cons_append, List.nil_append]
    rfl
  · simp only [BigNumber.lt, hlt, decide_False, Bool.false_eq_true, if_false,
      remote_some_bind, pure_bind_run, logBN_bind, logBN_run, emit_bind, uint256_some,
      List.append_assoc, List.cons_append, List.nil_append, List.append_nil]
    rfl

/-- C1: for every positive oracle answer `p` the reference price is `p * 10^10`, the
funding target is `5 * 10^22`, the weights are `[4 * 10^17, 6 * 10^17]`, and the plan
is `[lusd_balance, weth_balance]` with
`lusd_balance = floor (INITIAL_FUNDING * weights[0] / 10^18) = 2 * 10^22` and
`weth_balance = floor (INITIAL_FUNDING * weights[1] / eth_price)`: the product is
formed first and divided once. At `p = 2000 * 10^8` the second amount is `15 * 10^18`.
In every normal world with that oracle answer, `main` logs this price and these two
amounts. -/
theorem funding_plan_amounts (p : Int) (hp : 0 < p) :
    eth_price p = p * 10 ^ 10 ∧
    INITIAL_FUNDING = 5 * 10 ^ 22 ∧
    weights = [4 * 10 ^ 17, 6 * 10 ^ 17] ∧
    lusd_balance weights
      = .ok ⌊(((5 * 10 ^ 22 : Int) * (4 * 10 ^ 17 : Int) : Int) : ℚ) / ((10 ^ 18 : Int) : ℚ)⌋ ∧
    lusd_balance weights = .ok (2 * 10 ^ 22) ∧
    weth_balance weights p
      = .ok ⌊(((5 * 10 ^ 22 : Int) * (6 * 10 ^ 17 : Int) : Int) : ℚ) / ((eth_price p : Int) : ℚ)⌋ ∧
    (∃ lusd weth, lusd_balance weights = .ok lusd ∧ weth_balance weights p = .ok weth ∧
      initialBalances tokens weights p = .ok [lusd, weth]) ∧
    weth_balance weights (2000 * 10 ^ 8) = .ok (15 * 10 ^ 18) ∧
    (∀ balance wethAbi,
      Event.logBN "ETH price" (p * 10 ^ 10) ∈ (run (normalWorld p balance wethAbi)).trace ∧
      Event.logBN "Initial LUSD" (2 * 10 ^ 22)
        ∈ (run (normalWorld p balance wethAbi)).trace ∧
      Event.logBN "Initial OCEAN" ((3 * 10 ^ 40) / (p * 10 ^ 10))
        ∈ (run (normalWorld p balance wethAbi)).trace) := by
  have hr : (0 : ℚ) < ((p * 10 ^ 10 : Int) : ℚ) := by
    have : (0 : Int) < p * 10 ^ 10 := by positivity
    exact_mod_cast this
  obtain ⟨hlo, hhi⟩ := weth_quotient_bounds p hp
  refine ⟨eth_price_eq p, INITIAL_FUNDING_eq, weights_eq, ?_, lusd_balance_eq, ?_, ?_, ?_, ?_⟩
  · rw [lusd_balance_eq]
    congr 1
    symm
    rw [Int.floor_eq_iff]
    constructor <;> norm_num
  · rw [weth_balance_eq p hp, eth_price_eq]
    congr 1
    symm
    rw [Int.floor_eq_iff]
    constructor
    · rw [le_div_iff₀ hr]
      have h : (((3 * 10 ^ 40) / (p * 10 ^ 10) * (p * 10 ^ 10) : Int) : ℚ)
          ≤ ((3 * 10 ^ 40 : Int) : ℚ) := by exact_mod_cast hlo
      push_cast at h ⊢
      linarith
    · rw [div_lt_iff₀ hr]
      have h : ((3 * 10 ^ 40 : Int) : ℚ)
          < ((((3 * 10 ^ 40) / (p * 10 ^ 10) + 1) * (p * 10 ^ 10) : Int) : ℚ) := by
        exact_mod_cast hhi
      push_cast at h ⊢
      linarith
  · exact ⟨_, _, lusd_balance_eq, weth_balance_eq p hp, initialBalances_eq p hp⟩
  · rw [weth_balance_eq _ (by norm_num)]
    norm_num
  · intro balance wethAbi
    rcases wethAbi with _ | ⟨⟩
    · rw [run_normalWorld_unresolved p balance hp]
      simp
    · rw [run_normalWorld_resolved p balance hp]
      simp

theorem funding_plan_amounts_witness :
    (0 : Int) < 200000000000 ∧
    eth_price 200000000000 = 200000000000 * 10 ^ 10 ∧
    weth_balance weights 200000000000 = .ok (15 * 10 ^ 18) := by
  have h := funding_plan_amounts 200000000000 (by norm_num)
  exact ⟨by norm_num, h.1, by simpa using h.2.2.2.2.2.2.2.1⟩

set_option maxRecDepth 100000 in
theorem approvals_confirmed_before_join_witness :
    ∃ lusd weth txWeth txLusd,
      sampleRequest.maxAmountsIn = [lusd, weth] ∧
      (∃ p, sampleWorld.latestAnswer = some p ∧
        initialBalances tokens weights p = .ok [lusd, weth]) ∧
      sampleWorld.approveWeth = some txWeth ∧ sampleWorld.approveLusd = some txLusd ∧
      List.Sublist
        [Event.call (.approve OCEAN VAULT weth) true, Event.call (.wait txWeth) true,
         Event.call (.approve LUSD VAULT lusd) true, Event.call (.wait txLusd) true]
        samplePre ∧
      ∀ token spender amount r,
        Event.call (.approve token spender amount) r ∈ (run sampleWorld).trace →
        spender = VAULT ∧
          ((token = OCEAN ∧ amount = weth) ∨ (token = LUSD ∧ amount = lusd)) :=
  approvals_confirmed_before_join sampleWorld samplePre samplePost VAULT "0xPoolId"
    "0xDeployer" "0xDeployer" sampleRequest true (by decide)

set_option maxRecDepth 100000 in
theorem deposit_iff_shortfall_witness :
    ((∃ e ∈ (run sampleWorld).trace, isDeposit e = true)
      ↔ ((0 : Nat) : Int) < 15000000000000000000) ∧
    (∀ e ∈ (run sampleWorld).trace, isDeposit e = true →
      0 < 15000000000000000000 - ((0 : Nat) : Int) ∧
      ∃ r, e = Event.call (.deposit OCEAN (15000000000000000000 - ((0 : Nat) : Int))) r) ∧
    (run sampleWorld).trace.countP isDeposit ≤ 1 ∧
    (∀ pre e post, (run sampleWorld).trace = pre ++ e :: post → isApprove e = true →
      ((0 : Nat) : Int) < 15000000000000000000 →
      ∃ txDeposit, sampleWorld.deposit = some txDeposit ∧
        List.Sublist
          [Event.call (.deposit OCEAN (15000000000000000000 - ((0 : Nat) : Int))) true,
            Event.call (.wait txDeposit) true] pre) :=
  deposit_iff_shortfall sampleWorld ⟨"0xDeployer"⟩ [] ⟨1⟩ sampleReceipt
    ⟨some "PoolCreated", some ⟨some "0xPool"⟩⟩ [] "0xPool" "0xPoolId" 200000000000
    15000000000000000000 20000000000000000000000
    [0, 64, 2, 20000000000000000000000, 15000000000000000000] 0 0
    rfl rfl rfl (by decide) rfl rfl rfl (by rfl) (by rfl) (by rfl) rfl rfl rfl

end BalancerPoolDeployment
